import Mathlib

/-!
# Shallow embedding of the jserial Java-deserialization parser

This file embeds the in-memory buffer variant of `deserialize.go` from
jkeys089/jserial (the variant whose `serializedObjectParser` works over a
`[]byte` plus a position) and proves properties of the embedding.

Modelling conventions:
* Go byte slices become `List Nat`; every read normalises entries with `% 256`,
  so arbitrary `Nat` entries behave like their low byte.
* Go strings are byte sequences, so they are also modelled as `List Nat`
  (`map[string]interface{}` keys become `List Nat` keys of association lists).
* Machine integers are `Int`/`Nat` with explicit wraparound (`% 2^w`) where the
  Go code relies on fixed-width arithmetic (`int32` reference ids).
* Go `float32`/`float64` values are kept as their raw big-endian bit patterns:
  the parser only moves such bytes around and never computes with them.
* `interface{}` values produced by the parser become the inductive `JVal`;
  Go maps become association lists with in-place replacement on key collision.
* The unbounded recursion of the Go parser is made total with a fuel argument;
  every mutually recursive call decreases the fuel by one.
* Go errors are wrapped with context strings as they propagate; only the kind
  of each error is modelled, not the accumulated message text.
* Pointer mutation of an already-registered handle (`*clazz` and the array /
  object records) is modelled by updating the handle slot when the parsed
  entity is complete.  For Object and Enum this matches the Go code exactly
  (their deferred slots hold `nil` until filled at the end); for ClassDesc the
  slot holds a snapshot of the name/uid until the descriptor is finished.
* The parser state carries two ghost counters that never influence parsing:
  `hTagsAll` counts every dispatched String / LongString / Class / ClassDesc /
  Array / Object / Enum tag, and `hTags` counts the same tags except that a
  ClassDesc tag is only counted once its class-name length check has passed.
-/

namespace JSerial

/-- Error kinds surfaced by the parser (message texts are not modelled). -/
inductive Err where
  | prematureEnd
  | badMagic
  | badVersion (v : Nat)
  | unknownType (b : Nat)
  | notAllowed (name : String)
  | unsupported (name : String)
  | stringTooLong
  | unexpectedClassDescType
  | badFieldClassName
  | version1External
  | unknownClassFlags (f : Nat)
  | unknownFieldType (t : Nat)
  | unexpectedExtends
  | ppNeedOne
  | ppNotBytes
  | ppShort
  | ppCount
  | outOfFuel
  deriving DecidableEq, Repr

/-- Info about a single class member (`field` in the Go source). -/
structure FieldD where
  typeName  : Nat
  name      : List Nat
  className : List Nat
  deriving DecidableEq, Repr

mutual
/-- The `interface{}` values produced by the parser. -/
inductive JVal where
  | null
  | i8 (x : Int)
  | i16 (x : Int)
  | i32 (x : Int)
  | i64 (x : Int)
  | f32 (bits : Nat)
  | f64 (bits : Nat)
  | boolV (b : Bool)
  | charV (code : Nat)
  | str (s : List Nat)
  | bytes (b : List Nat)
  | arr (xs : List JVal)
  | obj (fields : List (List Nat × JVal))
  | clazzV (c : Clazz)
  | endBlock
  | strSet (members : List (List Nat))
  | timeV (millis : Int)
  deriving Repr

/-- Java class info (`clazz` in the Go source). -/
inductive Clazz where
  | mk (name uid : List Nat) (flags : Nat) (isEnum : Bool)
      (fields : List FieldD) (annotations : List JVal) (super : Option Clazz)
  deriving Repr
end

def Clazz.name : Clazz → List Nat
  | .mk n _ _ _ _ _ _ => n

def Clazz.uid : Clazz → List Nat
  | .mk _ u _ _ _ _ _ => u

def Clazz.flags : Clazz → Nat
  | .mk _ _ f _ _ _ _ => f

def Clazz.isEnum : Clazz → Bool
  | .mk _ _ _ e _ _ _ => e

def Clazz.fields : Clazz → List FieldD
  | .mk _ _ _ _ fs _ _ => fs

def Clazz.annotations : Clazz → List JVal
  | .mk _ _ _ _ _ as _ => as

def Clazz.super : Clazz → Option Clazz
  | .mk _ _ _ _ _ _ s => s

/-- Association lists standing in for Go `map[string]interface{}`. -/
abbrev AList := List (List Nat × JVal)

/-- Map write `m[k] = v`: replace in place if present, append otherwise. -/
def AList.insert (l : AList) (k : List Nat) (v : JVal) : AList :=
  match l with
  | [] => [(k, v)]
  | (k', v') :: t => if k' = k then (k, v) :: t else (k', v') :: AList.insert t k v

def AList.lookup (l : AList) (k : List Nat) : Option JVal :=
  match l with
  | [] => none
  | (k', v') :: t => if k' = k then some v' else AList.lookup t k

/-- The parser state: the buffer, position and handle table of
`serializedObjectParser`, plus the two ghost tag counters. -/
structure PState where
  buf      : List Nat
  pos      : Nat
  handles  : List JVal
  hTags    : Nat
  hTagsAll : Nat
  deriving Repr

/-- `newHandle`: append a parsed object to the handle table. -/
def newHandle (v : JVal) (st : PState) : PState :=
  { st with handles := st.handles ++ [v] }

/-- Fill handle slot `idx` (models mutation through the registered pointer). -/
def setHandle (idx : Nat) (v : JVal) (st : PState) : PState :=
  { st with handles := st.handles.set idx v }

/-! ## Byte reader -/

/-- The next `cnt` bytes of the stream, normalised mod 256. -/
def bytesAt (st : PState) (cnt : Nat) : List Nat :=
  ((st.buf.drop st.pos).take cnt).map (· % 256)

/-- `step` + slice: read `cnt` raw bytes, normalised mod 256. -/
def readRaw (cnt : Nat) (st : PState) : Except Err (List Nat × PState) :=
  if st.pos + cnt ≤ st.buf.length then
    .ok (bytesAt st cnt, { st with pos := st.pos + cnt })
  else
    .error .prematureEnd

/-- Big-endian value of a byte list. -/
def beVal (bs : List Nat) : Nat := bs.foldl (fun a b => a * 256 + b) 0

/-- Two's-complement reading of a `w`-bit unsigned value. -/
def toSigned (w : Nat) (u : Nat) : Int :=
  if u < 2 ^ (w - 1) then (u : Int) else (u : Int) - 2 ^ w

/-- 32-bit wraparound of an integer, reported as a signed value. -/
def wrapS32 (x : Int) : Int :=
  let u := x.emod (2 ^ 32)
  if u < 2 ^ 31 then u else u - 2 ^ 32

def readUInt8 (st : PState) : Except Err (Nat × PState) :=
  match readRaw 1 st with
  | .error e => .error e
  | .ok (bs, st') => .ok (beVal bs, st')

def readUInt16 (st : PState) : Except Err (Nat × PState) :=
  match readRaw 2 st with
  | .error e => .error e
  | .ok (bs, st') => .ok (beVal bs, st')

def readUInt32 (st : PState) : Except Err (Nat × PState) :=
  match readRaw 4 st with
  | .error e => .error e
  | .ok (bs, st') => .ok (beVal bs, st')

def readInt8 (st : PState) : Except Err (Int × PState) :=
  match readRaw 1 st with
  | .error e => .error e
  | .ok (bs, st') => .ok (toSigned 8 (beVal bs), st')

def readInt16 (st : PState) : Except Err (Int × PState) :=
  match readRaw 2 st with
  | .error e => .error e
  | .ok (bs, st') => .ok (toSigned 16 (beVal bs), st')

def readInt32 (st : PState) : Except Err (Int × PState) :=
  match readRaw 4 st with
  | .error e => .error e
  | .ok (bs, st') => .ok (toSigned 32 (beVal bs), st')

def readInt64 (st : PState) : Except Err (Int × PState) :=
  match readRaw 8 st with
  | .error e => .error e
  | .ok (bs, st') => .ok (toSigned 64 (beVal bs), st')

/-- Raw big-endian bit pattern of a float32 (no FP semantics needed). -/
def readFloat32 (st : PState) : Except Err (Nat × PState) :=
  match readRaw 4 st with
  | .error e => .error e
  | .ok (bs, st') => .ok (beVal bs, st')

def readFloat64 (st : PState) : Except Err (Nat × PState) :=
  match readRaw 8 st with
  | .error e => .error e
  | .ok (bs, st') => .ok (beVal bs, st')

/-- Lowercase hex digit of a value below 16, as an ASCII code. -/
def hexDig (n : Nat) : Nat := if n < 10 then 48 + n else 87 + n

/-- `readString(cnt, asHex=true)`: `fmt.Sprintf("%x", bytes)`. -/
def hexBytes (bs : List Nat) : List Nat :=
  bs.foldr (fun b acc => hexDig (b / 16) :: hexDig (b % 16) :: acc) []

/-- `readString(8, true)` used for the serialVersionUID. -/
def readStringHex8 (st : PState) : Except Err (List Nat × PState) :=
  match readRaw 8 st with
  | .error e => .error e
  | .ok (bs, st') => .ok (hexBytes bs, st')

/-- `utf`: 16-bit length then that many bytes. -/
def utf (st : PState) : Except Err (List Nat × PState) :=
  match readUInt16 st with
  | .error e => .error e
  | .ok (n, st') => readRaw n st'

/-- `utfLong`: two 32-bit halves; the first must be zero. -/
def utfLong (st : PState) : Except Err (List Nat × PState) :=
  match readUInt32 st with
  | .error e => .error e
  | .ok (hi, st') =>
    if hi ≠ 0 then .error .stringTooLong
    else
      match readUInt32 st' with
      | .error e => .error e
      | .ok (lo, st'') => readRaw lo st''

/-- `magic`: STREAM_MAGIC (0xACED) check. -/
def magic (st : PState) : Except Err PState :=
  match readUInt16 st with
  | .error e => .error e
  | .ok (v, st') => if v ≠ 0xaced then .error .badMagic else .ok st'

/-- `version`: protocol version 5 check (a failed read leaves `ver = 0`,
which the Go code reports as a version error). -/
def version (st : PState) : Except Err PState :=
  match readUInt16 st with
  | .error _ => .error (.badVersion 0)
  | .ok (v, st') => if v ≠ 5 then .error (.badVersion v) else .ok st'

/-! ## Non-recursive type parsers -/

/-- `parseReference`: 32-bit wire id; out-of-range indices yield nil.
The subtraction `refIdx - 0x7e0000` is `int32` arithmetic, hence `wrapS32`. -/
def parseReference (st : PState) : Except Err (JVal × PState) :=
  match readInt32 st with
  | .error e => .error e
  | .ok (refIdx, st') =>
    let i : Int := wrapS32 (refIdx - 0x7e0000)
    if -1 < i ∧ i < (st'.handles.length : Int) then
      .ok (st'.handles.getD i.toNat .null, st')
    else
      .ok (.null, st')

/-- `parseBlockData`: 8-bit length plus raw payload; no handle. -/
def parseBlockData (st : PState) : Except Err (JVal × PState) :=
  match readUInt8 st with
  | .error e => .error e
  | .ok (size, st') =>
    match readRaw size st' with
    | .error e => .error e
    | .ok (bs, st'') => .ok (.bytes bs, st'')

/-- `parseBlockDataLong`: 32-bit length plus raw payload; no handle. -/
def parseBlockDataLong (st : PState) : Except Err (JVal × PState) :=
  match readUInt32 st with
  | .error e => .error e
  | .ok (size, st') =>
    match readRaw size st' with
    | .error e => .error e
    | .ok (bs, st'') => .ok (.bytes bs, st'')

/-- `parseString`: utf string registered as a new handle. -/
def parseString (st : PState) : Except Err (JVal × PState) :=
  match utf st with
  | .error e => .error e
  | .ok (s, st') => .ok (.str s, newHandle (.str s) st')

/-- `parseLongString`: long utf string registered as a new handle. -/
def parseLongString (st : PState) : Except Err (JVal × PState) :=
  match utfLong st with
  | .error e => .error e
  | .ok (s, st') => .ok (.str s, newHandle (.str s) st')

/-! ## Post-processors -/

def kAt : List Nat := [64]
def kClass : List Nat := [99, 108, 97, 115, 115]
def kExtends : List Nat := [101, 120, 116, 101, 110, 100, 115]
def kValue : List Nat := [118, 97, 108, 117, 101]
def kLength : List Nat := [108, 101, 110, 103, 116, 104]

/-- Big-endian value of the four bytes of `b` starting at `offset`. -/
def be32At (b : List Nat) (offset : Nat) : Nat :=
  beVal (((b.drop offset).take 4).map (· % 256))

/-- `postProcSize`: the object size as an int32 from the first data element. -/
def postProcSize (data : List JVal) (offset : Nat) : Except Err Int :=
  match data with
  | [] => .error .ppNeedOne
  | d0 :: _ =>
    match d0 with
    | .bytes b =>
      if b.length < offset + 4 then .error .ppShort
      else .ok (toSigned 32 (be32At b offset))
    | _ => .error .ppNotBytes

/-- `listPostProc` (ArrayList / ArrayDeque). -/
def listPostProc (fields : AList) (data : List JVal) : Except Err AList :=
  match postProcSize data 0 with
  | .error e => .error e
  | .ok size =>
    if (data.length : Int) ≠ size + 1 then .error .ppCount
    else if 1 < size then
      .ok (AList.insert fields kValue (.arr ((data.drop 1).take (size.toNat - 1))))
    else
      .ok (AList.insert fields kValue (.arr []))

/-- `mapPostProc` (HashMap / Hashtable). -/
def mapPostProc (fields : AList) (data : List JVal) : Except Err AList :=
  match postProcSize data 4 with
  | .error e => .error e
  | .ok size =>
    if (data.length : Int) < size * 2 + 1 then .error .ppCount
    else
      let m := (List.range size.toNat).foldl
        (fun m i =>
          match data.getD (2 * i + 1) .null with
          | .str s => AList.insert m s (data.getD (2 * i + 2) .null)
          | _ => m) []
      .ok (AList.insert fields kValue (.obj m))

/-- `enumMapPostProc` (EnumMap): keys come from the enum record's `value`. -/
def enumMapPostProc (fields : AList) (data : List JVal) : Except Err AList :=
  match postProcSize data 0 with
  | .error e => .error e
  | .ok size =>
    if (data.length : Int) < size * 2 + 1 then .error .ppCount
    else
      let m := (List.range size.toNat).foldl
        (fun m i =>
          match data.getD (2 * i + 1) .null with
          | .obj mk =>
            match AList.lookup mk kValue with
            | some (.str s) => AList.insert m s (data.getD (2 * i + 2) .null)
            | _ => m
          | _ => m) []
      .ok (AList.insert fields kValue (.obj m))

/-- Go `map[string]bool` member insertion. -/
def setIns (m : List (List Nat)) (k : List Nat) : List (List Nat) :=
  if k ∈ m then m else m ++ [k]

/-- `hashSetPostProc` (HashSet): `for idx := range data[1:size]`,
reading `data[idx+1]`. -/
def hashSetPostProc (fields : AList) (data : List JVal) : Except Err AList :=
  match postProcSize data 8 with
  | .error e => .error e
  | .ok size =>
    if (data.length : Int) ≠ size + 1 then .error .ppCount
    else
      let m : List (List Nat) :=
        if 1 < size then
          (List.range (size.toNat - 1)).foldl
            (fun m idx =>
              match data.getD (idx + 1) .null with
              | .str s => setIns m s
              | _ => m) []
        else []
      .ok (AList.insert fields kValue (.strSet m))

/-- `datePostProc` (Date): the `time.Time` is kept as its millisecond input. -/
def datePostProc (fields : AList) (data : List JVal) : Except Err AList :=
  match data with
  | [] => .error .ppNeedOne
  | d0 :: _ =>
    match d0 with
    | .bytes b =>
      if b.length < 8 then .error .ppShort
      else
        .ok (AList.insert fields kValue
          (.timeV (toSigned 64 (beVal (((b.take 8)).map (· % 256))))))
    | _ => .error .ppNotBytes

/-- "java.util.ArrayList@7881d21d99c7619d" as bytes. -/
def sigArrayList : List Nat :=
  [106, 97, 118, 97, 46, 117, 116, 105, 108, 46, 65, 114, 114, 97, 121, 76,
   105, 115, 116, 64, 55, 56, 56, 49, 100, 50, 49, 100, 57, 57, 99, 55, 54,
   49, 57, 100]

/-- "java.util.ArrayDeque@207cda2e240da08b" as bytes. -/
def sigArrayDeque : List Nat :=
  [106, 97, 118, 97, 46, 117, 116, 105, 108, 46, 65, 114, 114, 97, 121, 68,
   101, 113, 117, 101, 64, 50, 48, 55, 99, 100, 97, 50, 101, 50, 52, 48, 100,
   97, 48, 56, 98]

/-- "java.util.Hashtable@13bb0f25214ae4b8" as bytes. -/
def sigHashtable : List Nat :=
  [106, 97, 118, 97, 46, 117, 116, 105, 108, 46, 72, 97, 115, 104, 116, 97,
   98, 108, 101, 64, 49, 51, 98, 98, 48, 102, 50, 53, 50, 49, 52, 97, 101,
   52, 98, 56]

/-- "java.util.HashMap@0507dac1c31660d1" as bytes. -/
def sigHashMap : List Nat :=
  [106, 97, 118, 97, 46, 117, 116, 105, 108, 46, 72, 97, 115, 104, 77, 97,
   112, 64, 48, 53, 48, 55, 100, 97, 99, 49, 99, 51, 49, 54, 54, 48, 100, 49]

/-- "java.util.EnumMap@065d7df7be907ca1" as bytes. -/
def sigEnumMap : List Nat :=
  [106, 97, 118, 97, 46, 117, 116, 105, 108, 46, 69, 110, 117, 109, 77, 97,
   112, 64, 48, 54, 53, 100, 55, 100, 102, 55, 98, 101, 57, 48, 55, 99, 97, 49]

/-- "java.util.HashSet@ba44859596b8b734" as bytes. -/
def sigHashSet : List Nat :=
  [106, 97, 118, 97, 46, 117, 116, 105, 108, 46, 72, 97, 115, 104, 83, 101,
   116, 64, 98, 97, 52, 52, 56, 53, 57, 53, 57, 54, 98, 56, 98, 55, 51, 52]

/-- "java.util.Date@686a81014b597419" as bytes. -/
def sigDate : List Nat :=
  [106, 97, 118, 97, 46, 117, 116, 105, 108, 46, 68, 97, 116, 101, 64, 54,
   56, 54, 97, 56, 49, 48, 49, 52, 98, 53, 57, 55, 52, 49, 57]

/-- `KnownPostProcs`: lookup by `className@serialVersionUID`. -/
def lookupPostProc (key : List Nat) :
    Option (AList → List JVal → Except Err AList) :=
  if key = sigArrayList then some listPostProc
  else if key = sigArrayDeque then some listPostProc
  else if key = sigHashtable then some mapPostProc
  else if key = sigHashMap then some mapPostProc
  else if key = sigEnumMap then some enumMapPostProc
  else if key = sigHashSet then some hashSetPostProc
  else if key = sigDate then some datePostProc
  else none

/-- Signature of a class in the post-processor registry's key format. -/
def clazzSig (c : Clazz) : List Nat := c.name ++ kAt ++ c.uid

/-! ## Tag dispatcher tables -/

def typeNames : List String :=
  ["Null", "Reference", "ClassDesc", "Object", "String", "Array", "Class",
   "BlockData", "EndBlockData", "Reset", "BlockDataLong", "Exception",
   "LongString", "ProxyClassDesc", "Enum"]

def allowedClazzNames : List String :=
  ["ClassDesc", "ProxyClassDesc", "Null", "Reference"]

/-- The handle-producing tag names (ghost accounting only). -/
def handleTagNames : List String :=
  ["String", "LongString", "Class", "ClassDesc", "Array", "Object", "Enum"]

/-- Handle-producing tags whose parsers unconditionally register a handle;
ClassDesc is counted inside `parseClassDescF` after its name check. -/
def handleTagNamesNoCD : List String :=
  ["String", "LongString", "Class", "Array", "Object", "Enum"]

/-- Ghost: count every dispatched handle-producing tag. -/
def bumpAll (name : String) (st : PState) : PState :=
  if handleTagNames.contains name then { st with hTagsAll := st.hTagsAll + 1 } else st

/-- Ghost: count dispatched handle-producing tags other than ClassDesc. -/
def bumpSix (name : String) (st : PState) : PState :=
  if handleTagNamesNoCD.contains name then { st with hTags := st.hTags + 1 } else st

/-- Ghost: the ClassDesc bump performed once the name check has passed. -/
def bumpCD (st : PState) : PState := { st with hTags := st.hTags + 1 }

def nameAllowed (allowed : Option (List String)) (name : String) : Bool :=
  match allowed with
  | none => true
  | some ns => ns.contains name

/-- The value stored for a possibly-nil `*clazz`. -/
def clsVal : Option Clazz → JVal
  | none => .null
  | some c => .clazzV c

/-- Primitive type codes with a registered handler. -/
def primKnown (tn : Nat) : Bool :=
  tn = 66 ∨ tn = 67 ∨ tn = 68 ∨ tn = 70 ∨ tn = 73 ∨ tn = 74 ∨ tn = 83 ∨
    tn = 90 ∨ tn = 76 ∨ tn = 91

/-! ## Recursive parser core

Every mutually recursive call decreases the fuel by exactly one. -/

mutual

/-- `content`: tag dispatch. -/
def contentF : Nat → Option (List String) → PState → Except Err (JVal × PState)
  | 0, _, _ => .error .outOfFuel
  | f + 1, allowed, st =>
    match readUInt8 st with
    | .error e => .error e
    | .ok (b, st1) =>
      let tc := (b + 256 - 0x70) % 256
      if 14 < tc then .error (.unknownType ((tc + 0x70) % 256))
      else
        let name := typeNames.getD tc ""
        if nameAllowed allowed name then
          let st2 := bumpSix name (bumpAll name st1)
          match name with
          | "Null" => .ok (.null, st2)
          | "Reference" => parseReference st2
          | "ClassDesc" => parseClassDescF f st2
          | "Object" => parseObjectF f st2
          | "String" => parseString st2
          | "Array" => parseArrayF f st2
          | "Class" => parseClassF f st2
          | "BlockData" => parseBlockData st2
          | "EndBlockData" => .ok (.endBlock, st2)
          | "BlockDataLong" => parseBlockDataLong st2
          | "LongString" => parseLongString st2
          | "Enum" => parseEnumF f st2
          | _ => .error (.unsupported name)
        else .error (.notAllowed name)
  termination_by structural fuel => fuel

/-- `parseClassDesc`.  When the name is shorter than two bytes the Go code
executes `err = errors.Wrapf(err, ...)` with `err == nil`, which yields `nil`:
the function returns `(nil, nil)` and the short name is silently accepted. -/
def parseClassDescF : Nat → PState → Except Err (JVal × PState)
  | 0, _ => .error .outOfFuel
  | f + 1, st =>
    match utf st with
    | .error e => .error e
    | .ok (nm, st1) =>
      if nm.length < 2 then .ok (.null, st1)
      else
        match readStringHex8 st1 with
        | .error e => .error e
        | .ok (uid, st2) =>
          let idx := st2.handles.length
          let st3 := bumpCD (newHandle (.clazzV (.mk nm uid 0 false [] [] none)) st2)
          match readUInt8 st3 with
          | .error e => .error e
          | .ok (flags, st4) =>
            let isEnum : Bool := flags / 16 % 2 = 1
            match readUInt16 st4 with
            | .error e => .error e
            | .ok (fieldCount, st5) =>
              match fieldsLoopF f fieldCount st5 with
              | .error e => .error e
              | .ok (fields, st6) =>
                match annotationsF f none st6 with
                | .error e => .error e
                | .ok (anns, st7) =>
                  match classDescF f st7 with
                  | .error e => .error e
                  | .ok (osuper, st8) =>
                    let cls : Clazz := .mk nm uid flags isEnum fields anns osuper
                    .ok (.clazzV cls, setHandle idx (.clazzV cls) st8)
  termination_by structural fuel => fuel

/-- `classDesc`: a descriptor position (new descriptor, null or reference). -/
def classDescF : Nat → PState → Except Err (Option Clazz × PState)
  | 0, _ => .error .outOfFuel
  | f + 1, st =>
    match contentF f (some allowedClazzNames) st with
    | .error e => .error e
    | .ok (x, st1) =>
      match x with
      | .null => .ok (none, st1)
      | .clazzV c => .ok (some c, st1)
      | _ => .error .unexpectedClassDescType
  termination_by structural fuel => fuel

/-- `fieldDesc`: one-byte type code, utf name, optional class name.  The Go
code tests `strings.Contains("[L", typeName)`, true exactly for `[` and `L`. -/
def fieldDescF : Nat → PState → Except Err (FieldD × PState)
  | 0, _ => .error .outOfFuel
  | f + 1, st =>
    match readUInt8 st with
    | .error e => .error e
    | .ok (typeDec, st1) =>
      match utf st1 with
      | .error e => .error e
      | .ok (nm, st2) =>
        if typeDec = 91 ∨ typeDec = 76 then
          match contentF f none st2 with
          | .error e => .error e
          | .ok (cn, st3) =>
            match cn with
            | .str s => .ok (⟨typeDec, nm, s⟩, st3)
            | _ => .error .badFieldClassName
        else .ok (⟨typeDec, nm, []⟩, st2)
  termination_by structural fuel => fuel

/-- The field-descriptor loop of `parseClassDesc`. -/
def fieldsLoopF : Nat → Nat → PState → Except Err (List FieldD × PState)
  | 0, _, _ => .error .outOfFuel
  | _ + 1, 0, st => .ok ([], st)
  | f + 1, n + 1, st =>
    match fieldDescF f st with
    | .error e => .error e
    | .ok (fd, st1) =>
      match fieldsLoopF f n st1 with
      | .error e => .error e
      | .ok (fds, st2) => .ok (fd :: fds, st2)
  termination_by structural fuel => fuel

/-- `annotations`: content values until the EndBlockData sentinel. -/
def annotationsF : Nat → Option (List String) → PState → Except Err (List JVal × PState)
  | 0, _, _ => .error .outOfFuel
  | f + 1, allowed, st =>
    match contentF f allowed st with
    | .error e => .error e
    | .ok (v, st1) =>
      match v with
      | .endBlock => .ok ([], st1)
      | v =>
        match annotationsF f allowed st1 with
        | .error e => .error e
        | .ok (vs, st2) => .ok (v :: vs, st2)
  termination_by structural fuel => fuel

/-- `parseClass`: a class descriptor registered as an additional handle. -/
def parseClassF : Nat → PState → Except Err (JVal × PState)
  | 0, _ => .error .outOfFuel
  | f + 1, st =>
    match classDescF f st with
    | .error e => .error e
    | .ok (ocls, st1) => .ok (clsVal ocls, newHandle (clsVal ocls) st1)
  termination_by structural fuel => fuel

/-- `parseArray`: the record `{class}` is registered before the length is
read, the length is written into the record, and with a nil descriptor the
function returns nil without reading any elements. -/
def parseArrayF : Nat → PState → Except Err (JVal × PState)
  | 0, _ => .error .outOfFuel
  | f + 1, st =>
    match classDescF f st with
    | .error e => .error e
    | .ok (ocls, st1) =>
      let res : AList := [(kClass, clsVal ocls)]
      let idx := st1.handles.length
      let st2 := newHandle (.obj res) st1
      match readInt32 st2 with
      | .error e => .error e
      | .ok (size, st3) =>
        let res2 := AList.insert res kLength (.i32 size)
        let st4 := setHandle idx (.obj res2) st3
        match ocls with
        | none => .ok (.null, st4)
        | some cls =>
          let tn := cls.name.getD 1 0
          if primKnown tn then
            match primLoopF f size.toNat tn st4 with
            | .error e => .error e
            | .ok (elems, st5) => .ok (.arr elems, st5)
          else .error (.unknownFieldType tn)
  termination_by structural fuel => fuel

/-- One primitive value, by type code (`primitiveHandlers`). -/
def primValueF : Nat → Nat → PState → Except Err (JVal × PState)
  | 0, _, _ => .error .outOfFuel
  | f + 1, tn, st =>
    match tn with
    | 66 =>
      match readInt8 st with
      | .error e => .error e
      | .ok (x, st') => .ok (.i8 x, st')
    | 67 =>
      match readUInt16 st with
      | .error e => .error e
      | .ok (c, st') => .ok (.charV c, st')
    | 68 =>
      match readFloat64 st with
      | .error e => .error e
      | .ok (x, st') => .ok (.f64 x, st')
    | 70 =>
      match readFloat32 st with
      | .error e => .error e
      | .ok (x, st') => .ok (.f32 x, st')
    | 73 =>
      match readInt32 st with
      | .error e => .error e
      | .ok (x, st') => .ok (.i32 x, st')
    | 74 =>
      match readInt64 st with
      | .error e => .error e
      | .ok (x, st') => .ok (.i64 x, st')
    | 83 =>
      match readInt16 st with
      | .error e => .error e
      | .ok (x, st') => .ok (.i16 x, st')
    | 90 =>
      match readInt8 st with
      | .error e => .error e
      | .ok (x, st') => .ok (.boolV (x ≠ 0), st')
    | 76 => contentF f none st
    | 91 => contentF f none st
    | t => .error (.unknownFieldType t)
  termination_by structural fuel => fuel

/-- The primitive element loop of `parseArray`. -/
def primLoopF : Nat → Nat → Nat → PState → Except Err (List JVal × PState)
  | 0, _, _, _ => .error .outOfFuel
  | _ + 1, 0, _, st => .ok ([], st)
  | f + 1, n + 1, tn, st =>
    match primValueF f tn st with
    | .error e => .error e
    | .ok (v, st1) =>
      match primLoopF f n tn st1 with
      | .error e => .error e
      | .ok (vs, st2) => .ok (v :: vs, st2)
  termination_by structural fuel => fuel

/-- `parseObject`: the deferred slot holds nil until the recursive class-data
walk completes. -/
def parseObjectF : Nat → PState → Except Err (JVal × PState)
  | 0, _ => .error .outOfFuel
  | f + 1, st =>
    match classDescF f st with
    | .error e => .error e
    | .ok (ocls, st1) =>
      let objMap : AList := [(kClass, clsVal ocls), (kExtends, .obj [])]
      let idx := st1.handles.length
      let st2 := newHandle .null st1
      let walk : Except Err (AList × PState) :=
        match ocls with
        | none => .ok (objMap, st2)
        | some cls => recursiveClassDataF f cls objMap st2
      match walk with
      | .error e => .error e
      | .ok (objMap', st3) =>
        .ok (.obj objMap', setHandle idx (.obj objMap') st3)
  termination_by structural fuel => fuel

/-- `parseEnum`: deferred slot, then one content value (the constant). -/
def parseEnumF : Nat → PState → Except Err (JVal × PState)
  | 0, _ => .error .outOfFuel
  | f + 1, st =>
    match classDescF f st with
    | .error e => .error e
    | .ok (ocls, st1) =>
      let idx := st1.handles.length
      let st2 := newHandle .null st1
      match contentF f none st2 with
      | .error e => .error e
      | .ok (c, st3) =>
        let res : AList := [(kValue, c), (kClass, clsVal ocls)]
        .ok (.obj res, setHandle idx (.obj res) st3)
  termination_by structural fuel => fuel

/-- The field-value loop of `values`. -/
def valuesLoopF : Nat → List FieldD → AList → PState → Except Err (AList × PState)
  | 0, _, _, _ => .error .outOfFuel
  | _ + 1, [], acc, st => .ok (acc, st)
  | f + 1, fd :: rest, acc, st =>
    if primKnown fd.typeName then
      match primValueF f fd.typeName st with
      | .error e => .error e
      | .ok (v, st1) => valuesLoopF f rest (AList.insert acc fd.name v) st1
    else .error (.unknownFieldType fd.typeName)
  termination_by structural fuel => fuel

/-- `classData`: dispatch on the low nibble of the class flags. -/
def classDataF : Nat → Clazz → PState → Except Err (AList × PState)
  | 0, _, _ => .error .outOfFuel
  | f + 1, cls, st =>
    if cls.flags % 16 = 0x02 then valuesLoopF f cls.fields [] st
    else if cls.flags % 16 = 0x03 then annotationsAsMapF f cls false st
    else if cls.flags % 16 = 0x04 then .error .version1External
    else if cls.flags % 16 = 0x0c then annotationsAsMapF f cls true st
    else .error (.unknownClassFlags cls.flags)
  termination_by structural fuel => fuel

/-- `annotationsAsMap`: values (unless isBlock), annotations under `@`, then
the registered post-processor — skipped entirely when `isBlock`. -/
def annotationsAsMapF : Nat → Clazz → Bool → PState → Except Err (AList × PState)
  | 0, _, _, _ => .error .outOfFuel
  | f + 1, cls, isBlock, st =>
    let start : Except Err (AList × PState) :=
      if isBlock then .ok ([], st) else valuesLoopF f cls.fields [] st
    match start with
    | .error e => .error e
    | .ok (data, st1) =>
      match annotationsF f none st1 with
      | .error e => .error e
      | .ok (anns, st2) =>
        let data1 := AList.insert data kAt (.arr anns)
        if isBlock then .ok (data1, st2)
        else
          match lookupPostProc (clazzSig cls) with
          | some pp =>
            match pp data1 anns with
            | .error e => .error e
            | .ok d => .ok (d, st2)
          | none => .ok (data1, st2)
  termination_by structural fuel => fuel

/-- `recursiveClassData`: superclass first, then this class's record.  The Go
pointer-identity `seen` set guards against cyclic descriptor pointers, which
cannot arise in this tree-shaped model, so it is omitted. -/
def recursiveClassDataF : Nat → Clazz → AList → PState → Except Err (AList × PState)
  | 0, _, _, _ => .error .outOfFuel
  | f + 1, cls, obj, st =>
    let step1 : Except Err (AList × PState) :=
      match cls.super with
      | some sup => recursiveClassDataF f sup obj st
      | none => .ok (obj, st)
    match step1 with
    | .error e => .error e
    | .ok (obj1, st1) =>
      match AList.lookup obj1 kExtends with
      | some (.obj ext) =>
        match classDataF f cls st1 with
        | .error e => .error e
        | .ok (fields, st2) =>
          let obj2 := AList.insert obj1 kExtends
            (.obj (AList.insert ext cls.name (.obj fields)))
          let obj3 := fields.foldl (fun o p => AList.insert o p.1 p.2) obj2
          .ok (obj3, st2)
      | _ => .error .unexpectedExtends

  termination_by structural fuel => fuel
end

/-! ## Public facade -/

/-- The repeated-content loop of `ParseSerializedObject`; `steps` bounds the
number of iterations, `fuel` is handed to each `contentF` call unchanged. -/
def contentLoop (fuel : Nat) : Nat → PState → Except Err (List JVal × PState)
  | 0, st => if st.pos < st.buf.length then .error .outOfFuel else .ok ([], st)
  | steps + 1, st =>
    if st.pos < st.buf.length then
      match contentF fuel none st with
      | .error e => .error e
      | .ok (v, st1) =>
        match contentLoop fuel steps st1 with
        | .error e => .error e
        | .ok (vs, st2) => .ok (v :: vs, st2)
    else .ok ([], st)

def initState (buf : List Nat) : PState := ⟨buf, 0, [], 0, 0⟩

/-- `ParseSerializedObject`, also exposing the final parser state.
`buf.length` iterations always suffice because every content value consumes
at least its tag byte. -/
def parseSO (fuel : Nat) (buf : List Nat) : Except Err (List JVal × PState) :=
  match magic (initState buf) with
  | .error e => .error e
  | .ok st1 =>
    match version st1 with
    | .error e => .error e
    | .ok st2 => contentLoop fuel buf.length st2

/-- `ParseSerializedObject` (values only). -/
def ParseSerializedObject (fuel : Nat) (buf : List Nat) : Except Err (List JVal) :=
  match parseSO fuel buf with
  | .error e => .error e
  | .ok (vs, _) => .ok vs

/-! ## Inversion lemmas for the byte reader -/

theorem readRaw_ok {cnt : Nat} {st : PState} {bs : List Nat} {st' : PState}
    (h : readRaw cnt st = .ok (bs, st')) :
    st.pos + cnt ≤ st.buf.length ∧
      bs = bytesAt st cnt ∧
      st' = { st with pos := st.pos + cnt } := by
  unfold readRaw at h
  split at h
  · cases h; exact ⟨‹_›, rfl, rfl⟩
  · cases h

theorem readRaw_of_le {cnt : Nat} {st : PState} (h : st.pos + cnt ≤ st.buf.length) :
    readRaw cnt st = .ok (bytesAt st cnt, { st with pos := st.pos + cnt }) := by
  unfold readRaw
  rw [if_pos h]

/-- Big-endian value of the next `n` bytes of the stream. -/
def beAt (st : PState) (n : Nat) : Nat := beVal (bytesAt st n)

theorem readUInt8_ok {st : PState} {v : Nat} {st' : PState}
    (h : readUInt8 st = .ok (v, st')) :
    st.pos + 1 ≤ st.buf.length ∧ v = beAt st 1 ∧ st' = { st with pos := st.pos + 1 } := by
  unfold readUInt8 at h
  split at h
  · cases h
  · rename_i p hr
    obtain ⟨h1, h2, h3⟩ := readRaw_ok hr
    cases h
    exact ⟨h1, by rw [beAt, h2], h3⟩

theorem readUInt16_ok {st : PState} {v : Nat} {st' : PState}
    (h : readUInt16 st = .ok (v, st')) :
    st.pos + 2 ≤ st.buf.length ∧ v = beAt st 2 ∧ st' = { st with pos := st.pos + 2 } := by
  unfold readUInt16 at h
  split at h
  · cases h
  · rename_i p hr
    obtain ⟨h1, h2, h3⟩ := readRaw_ok hr
    cases h
    exact ⟨h1, by rw [beAt, h2], h3⟩

theorem readUInt32_ok {st : PState} {v : Nat} {st' : PState}
    (h : readUInt32 st = .ok (v, st')) :
    st.pos + 4 ≤ st.buf.length ∧ v = beAt st 4 ∧ st' = { st with pos := st.pos + 4 } := by
  unfold readUInt32 at h
  split at h
  · cases h
  · rename_i p hr
    obtain ⟨h1, h2, h3⟩ := readRaw_ok hr
    cases h
    exact ⟨h1, by rw [beAt, h2], h3⟩

theorem readInt32_ok {st : PState} {v : Int} {st' : PState}
    (h : readInt32 st = .ok (v, st')) :
    st.pos + 4 ≤ st.buf.length ∧ v = toSigned 32 (beAt st 4) ∧
      st' = { st with pos := st.pos + 4 } := by
  unfold readInt32 at h
  split at h
  · cases h
  · rename_i p hr
    obtain ⟨h1, h2, h3⟩ := readRaw_ok hr
    cases h
    exact ⟨h1, by rw [beAt, h2], h3⟩

/-! ## C1: Reference resolution -/

/-- The handle-table index computed from the 32-bit wire id at the current
position (`int32` subtraction of the handle base `0x7E0000`). -/
def refIndexAt (st : PState) : Int :=
  wrapS32 (toSigned 32 (beAt st 4) - 0x7e0000)

/-- **C1.** For every Reference tag, the parser reads a 32-bit wire id and
computes the index `i = w - 0x7E0000` (in 32-bit arithmetic): if
`0 ≤ i < |handles|` the result is exactly the value registered at index `i`;
otherwise the result is null.  In both cases exactly the four id bytes are
consumed and no error is raised. -/
theorem C1_reference_resolution (st : PState) (h : st.pos + 4 ≤ st.buf.length) :
    parseReference st =
      .ok ((if 0 ≤ refIndexAt st ∧ refIndexAt st < (st.handles.length : Int)
              then st.handles.getD (refIndexAt st).toNat .null
              else .null),
           { st with pos := st.pos + 4 }) := by
  have hr : readInt32 st = .ok (toSigned 32 (beAt st 4), { st with pos := st.pos + 4 }) := by
    unfold readInt32
    rw [readRaw_of_le h]
    rfl
  have hcond : (-1 < refIndexAt st ∧ refIndexAt st < (st.handles.length : Int)) ↔
      (0 ≤ refIndexAt st ∧ refIndexAt st < (st.handles.length : Int)) := by
    constructor <;> (rintro ⟨h1, h2⟩; exact ⟨by omega, h2⟩)
  unfold parseReference
  rw [hr]
  dsimp only
  rw [show wrapS32 (toSigned 32 (beAt st 4) - 0x7e0000) = refIndexAt st from rfl]
  by_cases hc : 0 ≤ refIndexAt st ∧ refIndexAt st < (st.handles.length : Int)
  · rw [if_pos (hcond.mpr hc), if_pos hc]
  · rw [if_neg (fun hx => hc (hcond.mp hx)), if_neg hc]

/-- Concrete state for the C1 witness: wire id `0x7E0000` resolves to the
value registered at handle 0. -/
def c1St : PState := ⟨[0, 126, 0, 0, 9], 0, [.str [97]], 1, 1⟩

/-- Witness for C1 at a concrete state. -/
theorem C1_reference_resolution_witness :
    parseReference c1St =
      .ok ((if 0 ≤ refIndexAt c1St ∧ refIndexAt c1St < (c1St.handles.length : Int)
              then c1St.handles.getD (refIndexAt c1St).toNat .null
              else .null),
           { c1St with pos := c1St.pos + 4 }) :=
  C1_reference_resolution c1St (by decide)

/-! ## C2: short class names

The Go code intends to reject a class name shorter than two bytes,
but executes `err = errors.Wrapf(err, "invalid class name: ...")` at a point
where `err` is still nil; `errors.Wrapf(nil, ...)` returns nil, so
`parseClassDesc` returns `(nil, nil)` and parsing continues without error. -/

/-- A short class name makes `parseClassDesc` return a nil descriptor and a
nil error, consuming only the name bytes. -/
theorem parseClassDesc_short_name {f : Nat} {st st1 : PState} {nm : List Nat}
    (h : utf st = .ok (nm, st1)) (hlen : nm.length < 2) :
    parseClassDescF (f + 1) st = .ok (.null, st1) := by
  unfold parseClassDescF
  rw [h]
  dsimp only
  rw [if_pos hlen]

/-- The 8-byte stream `aced 0005 73 72 0000`: an Object whose new ClassDesc
has the empty UTF name. -/
def c2Input : List Nat := [172, 237, 0, 5, 115, 114, 0, 0]

/-- **C2.** The claim says a ClassDesc name of length < 2 must fail with an
InvalidClassName error.  The code instead accepts it: this complete stream
containing an empty class name parses without error (to a single object with
a nil class), because `errors.Wrapf` is applied to a nil error. -/
theorem C2_short_class_name_accepted :
    parseSO 20 c2Input =
      .ok ([.obj [(kClass, .null), (kExtends, .obj [])]],
        ⟨c2Input, 8, [.obj [(kClass, .null), (kExtends, .obj [])]], 1, 2⟩) := rfl

/-! ## Small helper lemmas -/

theorem PState.ext' {a b : PState} (h1 : a.buf = b.buf) (h2 : a.pos = b.pos)
    (h3 : a.handles = b.handles) (h4 : a.hTags = b.hTags)
    (h5 : a.hTagsAll = b.hTagsAll) : a = b := by
  cases a; cases b; cases h1; cases h2; cases h3; cases h4; cases h5; rfl

theorem set_append_length {α : Type} (l : List α) (a b : α) :
    (l ++ [a]).set l.length b = l ++ [b] := by
  induction l with
  | nil => rfl
  | cons x xs ih => simp [List.set, ih]

theorem beVal_singleton (x : Nat) : beVal [x] = x := by
  simp [beVal]

theorem bytesAt_one {st : PState} (h : st.pos < st.buf.length) :
    bytesAt st 1 = [st.buf.getD st.pos 0 % 256] := by
  unfold bytesAt
  rw [List.drop_eq_getElem_cons h]
  rw [show (1 : Nat) = 0 + 1 from rfl, List.take_succ_cons, List.take_zero]
  simp [List.getD, List.getElem?_eq_getElem h]

/-! ## C8: LongString -/

/-- **C8.** For every LongString tag (0x7C) the dispatcher hands control to
`parseLongString`; that parser reads the 64-bit length as two 32-bit halves,
fails with `StringTooLong` as soon as the upper half is nonzero (before
touching the second half or any string bytes), and otherwise reads exactly
lower-half bytes as the string and registers it as a new handle. -/
theorem C8_long_string (f : Nat) (st : PState) :
    (st.buf.getD st.pos 0 % 256 = 0x7c → st.pos < st.buf.length →
      contentF (f + 1) none st =
        parseLongString
          { st with
            pos := st.pos + 1
            hTags := st.hTags + 1
            hTagsAll := st.hTagsAll + 1 }) ∧
    (st.pos + 4 ≤ st.buf.length → beAt st 4 ≠ 0 →
      parseLongString st = .error .stringTooLong) ∧
    (∀ n, n = beAt { st with pos := st.pos + 4 } 4 → beAt st 4 = 0 →
      st.pos + 8 + n ≤ st.buf.length →
      parseLongString st =
        .ok (.str (bytesAt { st with pos := st.pos + 8 } n),
          { st with
            pos := st.pos + 8 + n
            handles := st.handles ++ [.str (bytesAt { st with pos := st.pos + 8 } n)] })) := by
  refine ⟨?_, ?_, ?_⟩
  · intro hbyte hlt
    have hb : readUInt8 st = .ok (0x7c, { st with pos := st.pos + 1 }) := by
      unfold readUInt8
      rw [readRaw_of_le (by omega)]
      dsimp only
      rw [bytesAt_one hlt, hbyte, beVal_singleton]
    unfold contentF
    rw [hb]
    norm_num [typeNames, nameAllowed, bumpAll, bumpSix, handleTagNames,
      handleTagNamesNoCD]
  · intro h4 hne
    have hr : readUInt32 st = .ok (beAt st 4, { st with pos := st.pos + 4 }) := by
      unfold readUInt32
      rw [readRaw_of_le h4]
      rfl
    unfold parseLongString utfLong
    rw [hr]
    dsimp only
    rw [if_pos hne]
  · intro n hn hz hlen
    have hr1 : readUInt32 st = .ok (0, { st with pos := st.pos + 4 }) := by
      unfold readUInt32
      rw [readRaw_of_le (by omega)]
      dsimp only
      rw [show beVal (bytesAt st 4) = beAt st 4 from rfl, hz]
    have hr2 : readUInt32 { st with pos := st.pos + 4 } =
        .ok (n, { st with pos := st.pos + 8 }) := by
      unfold readUInt32
      rw [readRaw_of_le (by dsimp only; omega)]
      dsimp only
      rw [show beVal (bytesAt { st with pos := st.pos + 4 } 4) =
        beAt { st with pos := st.pos + 4 } 4 from rfl, ← hn]
    have hr3 : readRaw n { st with pos := st.pos + 8 } =
        .ok (bytesAt { st with pos := st.pos + 8 } n,
          { st with pos := st.pos + 8 + n }) := by
      rw [readRaw_of_le (by simpa using hlen)]
    unfold parseLongString utfLong
    rw [hr1]
    dsimp only
    rw [if_neg (by simp)]
    rw [hr2]
    dsimp only
    rw [hr3]
    rfl

/-- Witness state for C8: tag byte 0x7C, zero upper half, length 2,
payload "ab". -/
def c8St : PState := ⟨[124, 0, 0, 0, 0, 0, 0, 0, 2, 97, 98], 0, [], 0, 0⟩

/-- Witness for C8 at a concrete state (all three conjuncts). -/
theorem C8_long_string_witness :
    contentF 4 none c8St =
      parseLongString
        { c8St with
          pos := c8St.pos + 1
          hTags := c8St.hTags + 1
          hTagsAll := c8St.hTagsAll + 1 } ∧
    parseLongString ⟨[1, 0, 0, 0], 0, [], 0, 0⟩ = .error .stringTooLong ∧
    parseLongString { c8St with pos := 1 } =
      .ok (.str (bytesAt { c8St with pos := 1 + 8 } 2),
        { c8St with
          pos := 1 + 8 + 2
          handles := [] ++ [.str (bytesAt { c8St with pos := 1 + 8 } 2)] }) :=
  ⟨(C8_long_string 3 c8St).1 (by decide) (by decide),
   (C8_long_string 3 ⟨[1, 0, 0, 0], 0, [], 0, 0⟩).2.1 (by decide) (by decide),
   (C8_long_string 3 { c8St with pos := 1 }).2.2 2 (by decide) (by decide) (by decide)⟩

/-! ## C9: Array with a nil class descriptor -/

/-- **C9.** When the class-descriptor position of an Array holds Null (or a
Reference resolving to null), the parser still registers the record
`{class: null}` as a new handle, reads the 32-bit length into that record,
and returns a null value with no error and without reading any element bytes
(the position advances by exactly the four length bytes). -/
theorem C9_array_nil_class (f : Nat) (st st1 : PState)
    (h : classDescF f st = .ok (none, st1)) (h4 : st1.pos + 4 ≤ st1.buf.length) :
    parseArrayF (f + 1) st =
      .ok (.null,
        { st1 with
          pos := st1.pos + 4
          handles := st1.handles ++
            [.obj [(kClass, .null), (kLength, .i32 (toSigned 32 (beAt st1 4)))]] }) := by
  have hr : readInt32 (newHandle (.obj [(kClass, .null)]) st1) =
      .ok (toSigned 32 (beAt st1 4),
        { st1 with
          pos := st1.pos + 4
          handles := st1.handles ++ [.obj [(kClass, .null)]] }) := by
    unfold readInt32
    rw [readRaw_of_le (by simpa [newHandle] using h4)]
    rfl
  unfold parseArrayF
  rw [h]
  dsimp only [clsVal]
  rw [hr]
  dsimp only
  rw [show AList.insert [(kClass, JVal.null)] kLength (.i32 (toSigned 32 (beAt st1 4))) =
    [(kClass, JVal.null), (kLength, .i32 (toSigned 32 (beAt st1 4)))] by
      simp [AList.insert, kClass, kLength]]
  unfold setHandle
  dsimp only
  rw [set_append_length]

/-- Witness input for C9: Array tag body `70 00 00 00 05`. -/
def c9St : PState := ⟨[112, 0, 0, 0, 5], 0, [], 0, 0⟩

/-- Witness for C9 at a concrete state. -/
theorem C9_array_nil_class_witness :
    parseArrayF 4 c9St =
      .ok (.null,
        { (⟨[112, 0, 0, 0, 5], 1, [], 0, 0⟩ : PState) with
          pos := 1 + 4
          handles := [] ++
            [.obj [(kClass, .null),
              (kLength, .i32 (toSigned 32 (beAt (⟨[112, 0, 0, 0, 5], 1, [], 0, 0⟩ : PState) 4)))]] }) :=
  C9_array_nil_class 3 c9St ⟨[112, 0, 0, 0, 5], 1, [], 0, 0⟩ rfl (by decide)

/-! ## Post-processor helper lemmas -/

theorem foldl_congr_mem {α β : Type} (l : List β) (f g : α → β → α) (a : α)
    (H : ∀ acc, ∀ x ∈ l, f acc x = g acc x) : l.foldl f a = l.foldl g a := by
  induction l generalizing a with
  | nil => rfl
  | cons x xs ih =>
    simp only [List.foldl_cons]
    rw [H a x (by simp)]
    exact ih _ (fun acc y hy => H acc y (by simp [hy]))

theorem mem_setIns {m : List (List Nat)} {k s : List Nat} :
    s ∈ setIns m k ↔ s ∈ m ∨ s = k := by
  unfold setIns
  split
  · rename_i hk
    constructor
    · exact Or.inl
    · rintro (h | rfl)
      · exact h
      · exact hk
  · simp

theorem getD_append_left {α : Type} (l e : List α) (i : Nat) (d : α)
    (h : i < l.length) : (l ++ e).getD i d = l.getD i d := by
  simp [List.getD, List.getElem?_append, h]

theorem exists_lt_succ_iff (n : Nat) (P : Nat → Prop) :
    (∃ idx, idx < n + 1 ∧ P idx) ↔ (∃ idx, idx < n ∧ P idx) ∨ P n := by
  constructor
  · rintro ⟨i, hi, hp⟩
    rcases Nat.lt_succ_iff_lt_or_eq.mp hi with h | rfl
    · exact Or.inl ⟨i, h, hp⟩
    · exact Or.inr hp
  · rintro (⟨i, hi, hp⟩ | hp)
    · exact ⟨i, Nat.lt_succ_of_lt hi, hp⟩
    · exact ⟨n, Nat.lt_succ_self n, hp⟩

/-- Membership in the `hashSetPostProc` fold. -/
theorem mem_hashSetFold (data : List JVal) (n : Nat) (m0 : List (List Nat))
    (s : List Nat) :
    (s ∈ (List.range n).foldl
        (fun m idx =>
          match data.getD (idx + 1) .null with
          | .str t => setIns m t
          | _ => m) m0) ↔
      s ∈ m0 ∨ ∃ idx, idx < n ∧ data.getD (idx + 1) .null = .str s := by
  induction n generalizing m0 with
  | zero => simp
  | succ n ih =>
    rw [List.range_succ, List.foldl_append, List.foldl_cons, List.foldl_nil]
    rw [exists_lt_succ_iff]
    cases hd : data.getD (n + 1) JVal.null
    case str t =>
      rw [mem_setIns, ih]
      constructor
      · rintro ((h | h) | rfl)
        · exact Or.inl h
        · exact Or.inr (Or.inl h)
        · exact Or.inr (Or.inr rfl)
      · rintro (h | h | h)
        · exact Or.inl (Or.inl h)
        · exact Or.inl (Or.inr h)
        · exact Or.inr (by cases h; rfl)
    all_goals
      rw [ih]
      constructor
      · rintro (h | h)
        · exact Or.inl h
        · exact Or.inr (Or.inl h)
      · rintro (h | h | h)
        · exact Or.inl h
        · exact Or.inr h
        · exact absurd h (by simp)

theorem pair_mem_insert {m : AList} {s k : List Nat} {w v : JVal}
    (h : (k, v) ∈ AList.insert m s w) : (k, v) ∈ m ∨ k = s := by
  induction m with
  | nil =>
    simp [AList.insert] at h
    exact Or.inr h.1
  | cons p t ih =>
    obtain ⟨k', v'⟩ := p
    unfold AList.insert at h
    split at h
    · rename_i hk
      rcases List.mem_cons.mp h with h1 | h1
      · exact Or.inr (by cases h1; rfl)
      · exact Or.inl (List.mem_cons_of_mem _ h1)
    · rcases List.mem_cons.mp h with h1 | h1
      · exact Or.inl (h1 ▸ List.mem_cons_self _ _)
      · rcases ih h1 with h2 | h2
        · exact Or.inl (List.mem_cons_of_mem _ h2)
        · exact Or.inr h2

/-- Keys in the `mapPostProc` fold all come from string elements. -/
theorem mem_mapFold (data : List JVal) (n : Nat) (m0 : AList) (k : List Nat)
    (v : JVal)
    (h : (k, v) ∈ (List.range n).foldl
        (fun m i =>
          match data.getD (2 * i + 1) .null with
          | .str s => AList.insert m s (data.getD (2 * i + 2) .null)
          | _ => m) m0) :
    (k, v) ∈ m0 ∨ ∃ i, i < n ∧ data.getD (2 * i + 1) .null = .str k := by
  induction n with
  | zero => exact Or.inl (by simpa using h)
  | succ n ih =>
    rw [List.range_succ, List.foldl_append, List.foldl_cons, List.foldl_nil] at h
    cases hd : data.getD (2 * n + 1) JVal.null <;> rw [hd] at h <;> dsimp only at h
    case str s =>
      rcases pair_mem_insert h with h1 | h1
      · rcases ih h1 with h2 | ⟨i, hi, hp⟩
        · exact Or.inl h2
        · exact Or.inr ⟨i, Nat.lt_succ_of_lt hi, hp⟩
      · exact Or.inr ⟨n, Nat.lt_succ_self n, by rw [hd, h1]⟩
    all_goals
      rcases ih h with h2 | ⟨i, hi, hp⟩
      · exact Or.inl h2
      · exact Or.inr ⟨i, Nat.lt_succ_of_lt hi, hp⟩

/-! ## C6: ArrayList / ArrayDeque post-processing -/

/-- **C6.** `listPostProc` is registered for the ArrayList and ArrayDeque
signatures; it reads the size from the first four bytes of annotation
element 0, rejects any annotation count other than `size + 1` with the
element-count error, and otherwise sets `value` to the Go slice `data[1:size]`
(elements at indices 1 through size−1) when `size > 1` and to the empty
sequence when `size ≤ 1`. -/
theorem C6_list_post_proc (fields : AList) (b : List Nat) (rest : List JVal)
    (data : List JVal) (size : Int)
    (hdata : data = .bytes b :: rest) (hb : 4 ≤ b.length)
    (hsize : size = toSigned 32 (be32At b 0)) :
    lookupPostProc sigArrayList = some listPostProc ∧
    lookupPostProc sigArrayDeque = some listPostProc ∧
    ((data.length : Int) ≠ size + 1 → listPostProc fields data = .error .ppCount) ∧
    ((data.length : Int) = size + 1 →
      listPostProc fields data =
        .ok (AList.insert fields kValue
          (.arr (if 1 < size then (data.drop 1).take (size.toNat - 1) else [])))) := by
  have hpps : postProcSize data 0 = .ok size := by
    rw [hdata]
    unfold postProcSize
    dsimp only
    rw [if_neg (by omega), hsize]
  refine ⟨rfl, rfl, ?_, ?_⟩
  · intro hne
    unfold listPostProc
    rw [hpps]
    dsimp only
    rw [if_pos hne]
  · intro heq
    unfold listPostProc
    rw [hpps]
    dsimp only
    rw [if_neg (by omega)]
    split <;> rfl

/-- Witness data for C6: size 2, annotation count 3. -/
def c6Data : List JVal := [.bytes [0, 0, 0, 2], .str [97], .str [98]]

/-- Witness for C6 at concrete data (count mismatch and success cases). -/
theorem C6_list_post_proc_witness :
    lookupPostProc sigArrayList = some listPostProc ∧
    listPostProc [] (c6Data ++ [.null]) = .error .ppCount ∧
    listPostProc [] c6Data =
      .ok (AList.insert [] kValue
        (.arr (if 1 < (2 : Int) then (c6Data.drop 1).take ((2 : Int).toNat - 1) else []))) :=
  ⟨(C6_list_post_proc [] [0, 0, 0, 2] [.str [97], .str [98], .null]
      (c6Data ++ [.null]) 2 rfl (by decide) (by decide)).1,
   (C6_list_post_proc [] [0, 0, 0, 2] [.str [97], .str [98], .null]
      (c6Data ++ [.null]) 2 rfl (by decide) (by decide)).2.2.1 (by decide),
   (C6_list_post_proc [] [0, 0, 0, 2] [.str [97], .str [98]]
      c6Data 2 rfl (by decide) (by decide)).2.2.2 (by decide)⟩

/-! ## C7: HashSet post-processing -/

/-- Counterexample data for C7: size 1 (at offset 8), one member element. -/
def c7Data : List JVal := [.bytes [0, 0, 0, 0, 0, 0, 0, 0, 0, 0, 0, 1], .str [97]]

/-- **C7 counterexample.**  The claim says the post-processed set contains
exactly the strings at indices 1 through `size`.  Here `size = 1` and the
element at index 1 is the string "a", yet the resulting member set is empty:
the loop `for idx := range data[1:size]` never includes the element at index
`size`. -/
theorem C7_counterexample :
    hashSetPostProc [] c7Data = .ok [(kValue, .strSet [])] ∧
    toSigned 32 (be32At [0, 0, 0, 0, 0, 0, 0, 0, 0, 0, 0, 1] 8) = 1 ∧
    c7Data.getD 1 .null = .str [97] ∧
    [97] ∉ ([] : List (List Nat)) := by
  refine ⟨rfl, by decide, rfl, by decide⟩

/-- **C7 (amended).** For every HashSet whose annotation count equals
`size + 1` (size read at offset 8 of the first element), the post-processed
member set contains exactly those of the annotation elements at indices 1
through `size − 1` that are strings; the element at index `size` is never
consulted, and the set is empty when `size ≤ 1`. -/
theorem C7_hash_set_members (fields : AList) (b : List Nat) (rest : List JVal)
    (data : List JVal) (size : Int)
    (hdata : data = .bytes b :: rest) (hb : 12 ≤ b.length)
    (hsize : size = toSigned 32 (be32At b 8))
    (hlen : (data.length : Int) = size + 1) :
    lookupPostProc sigHashSet = some hashSetPostProc ∧
    ∃ S, hashSetPostProc fields data = .ok (AList.insert fields kValue (.strSet S)) ∧
      ∀ s, s ∈ S ↔ ∃ i : Nat, 1 ≤ i ∧ (i : Int) ≤ size - 1 ∧
        data.getD i .null = .str s := by
  have hpps : postProcSize data 8 = .ok size := by
    rw [hdata]
    unfold postProcSize
    dsimp only
    rw [if_neg (by omega), hsize]
  refine ⟨rfl, ?_⟩
  unfold hashSetPostProc
  rw [hpps]
  dsimp only
  rw [if_neg (by omega)]
  by_cases h1 : 1 < size
  · rw [if_pos h1]
    refine ⟨_, rfl, fun s => ?_⟩
    rw [mem_hashSetFold]
    simp only [List.not_mem_nil, false_or]
    constructor
    · rintro ⟨idx, hidx, hp⟩
      refine ⟨idx + 1, by omega, by omega, hp⟩
    · rintro ⟨i, hi1, hi2, hp⟩
      refine ⟨i - 1, by omega, ?_⟩
      rw [show i - 1 + 1 = i by omega]
      exact hp
  · rw [if_neg h1]
    refine ⟨[], rfl, fun s => ?_⟩
    simp only [List.not_mem_nil, false_iff]
    rintro ⟨i, hi1, hi2, _⟩
    omega

/-- Witness for the amended C7: size 2, members at index 1 only. -/
theorem C7_hash_set_members_witness :
    lookupPostProc sigHashSet = some hashSetPostProc ∧
    ∃ S, hashSetPostProc []
        [.bytes [0, 0, 0, 0, 0, 0, 0, 0, 0, 0, 0, 2], .str [97], .str [98]] =
        .ok (AList.insert [] kValue (.strSet S)) ∧
      ∀ s, s ∈ S ↔ ∃ i : Nat, 1 ≤ i ∧ (i : Int) ≤ (2 : Int) - 1 ∧
        [JVal.bytes [0, 0, 0, 0, 0, 0, 0, 0, 0, 0, 0, 2], .str [97], .str [98]].getD i .null
          = .str s :=
  C7_hash_set_members [] [0, 0, 0, 0, 0, 0, 0, 0, 0, 0, 0, 2] [.str [97], .str [98]]
    [.bytes [0, 0, 0, 0, 0, 0, 0, 0, 0, 0, 0, 2], .str [97], .str [98]] 2
    rfl (by decide) (by decide) (by decide)

/-! ## C10: HashMap / Hashtable post-processing -/

/-- **C10.** `mapPostProc` is registered for the HashMap and Hashtable
signatures; with the size read at offset 4 of the first annotation element it
errors (with the element-count error) exactly when the annotation count is
less than `2·size + 1`; annotation elements beyond index `2·size` are ignored
(appending extras leaves the result unchanged), and every key of the produced
`value` map comes from a string key element among the `size` pairs. -/
theorem C10_map_post_proc (fields : AList) (b : List Nat) (rest : List JVal)
    (data : List JVal) (size : Int)
    (hdata : data = .bytes b :: rest) (hb : 8 ≤ b.length)
    (hsize : size = toSigned 32 (be32At b 4)) :
    lookupPostProc sigHashMap = some mapPostProc ∧
    lookupPostProc sigHashtable = some mapPostProc ∧
    ((data.length : Int) < size * 2 + 1 → mapPostProc fields data = .error .ppCount) ∧
    (∀ extra, size * 2 + 1 ≤ (data.length : Int) →
      mapPostProc fields (data ++ extra) = mapPostProc fields data) ∧
    (size * 2 + 1 ≤ (data.length : Int) →
      ∃ mv, mapPostProc fields data = .ok (AList.insert fields kValue (.obj mv)) ∧
        ∀ k v, (k, v) ∈ mv →
          ∃ i : Nat, (i : Int) < size ∧ data.getD (2 * i + 1) .null = .str k) := by
  have hpps : postProcSize data 4 = .ok size := by
    rw [hdata]
    unfold postProcSize
    dsimp only
    rw [if_neg (by omega), hsize]
  have hlen : data.length = rest.length + 1 := by rw [hdata]; simp
  refine ⟨rfl, rfl, ?_, ?_, ?_⟩
  · intro hlt
    unfold mapPostProc
    rw [hpps]
    dsimp only
    rw [if_pos hlt]
  · intro extra hge
    have hpps2 : postProcSize (data ++ extra) 4 = .ok size := by
      rw [hdata, List.cons_append]
      unfold postProcSize
      dsimp only
      rw [if_neg (by omega), hsize]
    unfold mapPostProc
    rw [hpps, hpps2]
    dsimp only
    rw [if_neg (by simp; omega), if_neg (by omega)]
    have hfold : (List.range size.toNat).foldl
        (fun m i =>
          match (data ++ extra).getD (2 * i + 1) .null with
          | .str s => AList.insert m s ((data ++ extra).getD (2 * i + 2) .null)
          | _ => m) [] =
        (List.range size.toNat).foldl
        (fun m i =>
          match data.getD (2 * i + 1) .null with
          | .str s => AList.insert m s (data.getD (2 * i + 2) .null)
          | _ => m) [] := by
      apply foldl_congr_mem
      intro acc i hi
      have hi' : i < size.toNat := List.mem_range.mp hi
      have h1 : 2 * i + 1 < data.length := by omega
      have h2 : 2 * i + 2 < data.length := by omega
      rw [getD_append_left _ _ _ _ h1, getD_append_left _ _ _ _ h2]
    rw [hfold]
  · intro hge
    unfold mapPostProc
    rw [hpps]
    dsimp only
    rw [if_neg (by omega)]
    refine ⟨_, rfl, fun k v hmem => ?_⟩
    rcases mem_mapFold data size.toNat [] k v hmem with h | ⟨i, hi, hp⟩
    · simp at h
    · exact ⟨i, by omega, hp⟩

/-- Witness data for C10: size 1 (at offset 4), one key/value pair. -/
def c10Data : List JVal := [.bytes [0, 0, 0, 16, 0, 0, 0, 1], .str [107], .i32 5]

/-- Witness for C10 at concrete data. -/
theorem C10_map_post_proc_witness :
    (mapPostProc [] ([.bytes [0, 0, 0, 16, 0, 0, 0, 1]] : List JVal) = .error .ppCount) ∧
    (mapPostProc [] (c10Data ++ [.null]) = mapPostProc [] c10Data) ∧
    (∃ mv, mapPostProc [] c10Data = .ok (AList.insert [] kValue (.obj mv)) ∧
      ∀ k v, (k, v) ∈ mv →
        ∃ i : Nat, (i : Int) < 1 ∧ c10Data.getD (2 * i + 1) .null = .str k) :=
  ⟨(C10_map_post_proc [] [0, 0, 0, 16, 0, 0, 0, 1] [] [.bytes [0, 0, 0, 16, 0, 0, 0, 1]] 1
      rfl (by decide) (by decide)).2.2.1 (by decide),
   (C10_map_post_proc [] [0, 0, 0, 16, 0, 0, 0, 1] [.str [107], .i32 5] c10Data 1
      rfl (by decide) (by decide)).2.2.2.1 [.null] (by decide),
   (C10_map_post_proc [] [0, 0, 0, 16, 0, 0, 0, 1] [.str [107], .i32 5] c10Data 1
      rfl (by decide) (by decide)).2.2.2.2 (by decide)⟩

/-! ## C5: class-data flag dispatch -/

/-- **C5.** `classData` dispatches on the low nibble of the class flags:
`0x02` reads the declared field values only; `0x03` reads field values, then
annotations, and applies any registered post-processor; `0x04` fails with the
version-1-external error; `0x0C` skips field reading, stores the annotations
under `@` as the only entry, and skips post-processing even when a
post-processor is registered for the signature; every other nibble fails with
the unknown-class-flags error. -/
theorem C5_class_data_dispatch (f : Nat) (cls : Clazz) (st : PState) :
    (cls.flags % 16 = 0x02 → classDataF (f + 1) cls st = valuesLoopF f cls.fields [] st) ∧
    (cls.flags % 16 = 0x03 → classDataF (f + 1) cls st = annotationsAsMapF f cls false st) ∧
    (cls.flags % 16 = 0x04 → classDataF (f + 1) cls st = .error .version1External) ∧
    (cls.flags % 16 = 0x0c → classDataF (f + 1) cls st = annotationsAsMapF f cls true st) ∧
    (cls.flags % 16 ≠ 0x02 → cls.flags % 16 ≠ 0x03 → cls.flags % 16 ≠ 0x04 →
      cls.flags % 16 ≠ 0x0c →
      classDataF (f + 1) cls st = .error (.unknownClassFlags cls.flags)) ∧
    (∀ vals st1 anns st2, valuesLoopF f cls.fields [] st = .ok (vals, st1) →
      annotationsF f none st1 = .ok (anns, st2) →
      annotationsAsMapF (f + 1) cls false st =
        (match lookupPostProc (clazzSig cls) with
          | some pp =>
            (match pp (AList.insert vals kAt (.arr anns)) anns with
              | .error e => .error e
              | .ok d => .ok (d, st2))
          | none => .ok (AList.insert vals kAt (.arr anns), st2))) ∧
    (∀ anns st2, annotationsF f none st = .ok (anns, st2) →
      annotationsAsMapF (f + 1) cls true st = .ok ([(kAt, .arr anns)], st2)) := by
  refine ⟨?_, ?_, ?_, ?_, ?_, ?_, ?_⟩
  · intro h
    unfold classDataF
    rw [if_pos h]
  · intro h
    unfold classDataF
    rw [if_neg (by omega), if_pos h]
  · intro h
    unfold classDataF
    rw [if_neg (by omega), if_neg (by omega), if_pos h]
  · intro h
    unfold classDataF
    rw [if_neg (by omega), if_neg (by omega), if_neg (by omega), if_pos h]
  · intro h2 h3 h4 hc
    unfold classDataF
    rw [if_neg h2, if_neg h3, if_neg h4, if_neg hc]
  · intro vals st1 anns st2 hv ha
    unfold annotationsAsMapF
    dsimp only
    rw [if_neg (by simp), hv]
    dsimp only
    rw [ha]
    rfl
  · intro anns st2 ha
    unfold annotationsAsMapF
    dsimp only
    rw [if_pos rfl]
    dsimp only
    rw [ha]
    rfl

/-- A concrete class carrying the registered ArrayList signature but the
Externalizable-with-blockdata nibble 0x0C. -/
def c5ClsExt : Clazz :=
  .mk (sigArrayList.take 19) (sigArrayList.drop 20) 0x0c false [] [] none

/-- A concrete class with nibble 0x02 and no fields. -/
def c5ClsSer : Clazz := .mk [65, 66] [48, 49] 0x02 false [] [] none

def c5St : PState := ⟨[120], 0, [], 0, 0⟩

/-- Witness for C5 at concrete classes and states; the 0x0C case has a
registered post-processor that is nevertheless skipped. -/
theorem C5_class_data_dispatch_witness :
    (classDataF 4 c5ClsSer c5St = valuesLoopF 3 c5ClsSer.fields [] c5St) ∧
    (classDataF 4 (.mk [65, 66] [48, 49] 0x04 false [] [] none) c5St =
      .error .version1External) ∧
    (classDataF 4 (.mk [65, 66] [48, 49] 0x05 false [] [] none) c5St =
      .error (.unknownClassFlags 0x05)) ∧
    (classDataF 4 c5ClsExt c5St = annotationsAsMapF 3 c5ClsExt true c5St) ∧
    lookupPostProc (clazzSig c5ClsExt) = some listPostProc ∧
    (annotationsAsMapF 4 c5ClsExt true c5St = .ok ([(kAt, .arr [])], ⟨[120], 1, [], 0, 0⟩)) :=
  ⟨(C5_class_data_dispatch 3 c5ClsSer c5St).1 (by decide),
   (C5_class_data_dispatch 3 (.mk [65, 66] [48, 49] 0x04 false [] [] none) c5St).2.2.1
     (by decide),
   (C5_class_data_dispatch 3 (.mk [65, 66] [48, 49] 0x05 false [] [] none) c5St).2.2.2.2.1
     (by decide) (by decide) (by decide) (by decide),
   (C5_class_data_dispatch 3 c5ClsExt c5St).2.2.2.1 (by decide),
   rfl,
   (C5_class_data_dispatch 3 c5ClsExt c5St).2.2.2.2.2.2 [] ⟨[120], 1, [], 0, 0⟩ rfl⟩

/-! ## C4: handle/tag accounting

`tagBal st st'` says a parser step keeps the buffer, moves forward, stays in
bounds, and appends exactly as many handles as `hTags` ghost bumps;
`tagBal1` says it appends exactly one handle more than its bumps. -/

def tagBal (st st' : PState) : Prop :=
  st'.buf = st.buf ∧ st.pos ≤ st'.pos ∧
    (st.pos ≤ st.buf.length → st'.pos ≤ st.buf.length) ∧
    st'.handles.length + st.hTags = st.handles.length + st'.hTags

def tagBal1 (st st' : PState) : Prop :=
  st'.buf = st.buf ∧ st.pos ≤ st'.pos ∧
    (st.pos ≤ st.buf.length → st'.pos ≤ st.buf.length) ∧
    st'.handles.length + st.hTags = st.handles.length + st'.hTags + 1

theorem tagBal_refl (st : PState) : tagBal st st := ⟨rfl, le_refl _, fun h => h, rfl⟩

theorem tagBal_trans {a b c : PState} (h1 : tagBal a b) (h2 : tagBal b c) :
    tagBal a c := by
  obtain ⟨e1, p1, q1, n1⟩ := h1
  obtain ⟨e2, p2, q2, n2⟩ := h2
  rw [e1] at e2 q2
  exact ⟨e2, le_trans p1 p2, fun h => q2 (q1 h), by omega⟩

theorem tagBal_trans1a {a b c : PState} (h1 : tagBal a b) (h2 : tagBal1 b c) :
    tagBal1 a c := by
  obtain ⟨e1, p1, q1, n1⟩ := h1
  obtain ⟨e2, p2, q2, n2⟩ := h2
  rw [e1] at e2 q2
  exact ⟨e2, le_trans p1 p2, fun h => q2 (q1 h), by omega⟩

theorem tagBal1_trans1b {a b c : PState} (h1 : tagBal1 a b) (h2 : tagBal b c) :
    tagBal1 a c := by
  obtain ⟨e1, p1, q1, n1⟩ := h1
  obtain ⟨e2, p2, q2, n2⟩ := h2
  rw [e1] at e2 q2
  exact ⟨e2, le_trans p1 p2, fun h => q2 (q1 h), by omega⟩

theorem tagBal_advance {st : PState} {n : Nat} (h : st.pos + n ≤ st.buf.length) :
    tagBal st { st with pos := st.pos + n } := by
  refine ⟨rfl, ?_, fun _ => ?_, rfl⟩ <;> dsimp only <;> omega

theorem tagBal1_newHandle (v : JVal) (st : PState) : tagBal1 st (newHandle v st) := by
  refine ⟨rfl, le_refl _, fun h => h, ?_⟩
  simp [newHandle]
  omega

theorem tagBal_setHandle (i : Nat) (v : JVal) (st : PState) :
    tagBal st (setHandle i v st) := by
  refine ⟨rfl, le_refl _, fun h => h, ?_⟩
  simp [setHandle]

/-- `newHandle` followed by the ClassDesc ghost bump is balanced. -/
theorem tagBal_newHandle_bumpCD (v : JVal) (st : PState) :
    tagBal st (bumpCD (newHandle v st)) := by
  refine ⟨rfl, le_refl _, fun h => h, ?_⟩
  simp [newHandle, bumpCD]
  omega

/-- Compose a prefix step with a handle-registering parser that runs after
the ghost bump of its tag. -/
theorem tagBal_bump_comp {st st1 st' : PState} (h1 : tagBal st st1)
    (h2 : tagBal1 { st1 with hTags := st1.hTags + 1, hTagsAll := st1.hTagsAll + 1 } st') :
    tagBal st st' := by
  obtain ⟨e1, p1, q1, n1⟩ := h1
  obtain ⟨e2, p2, q2, n2⟩ := h2
  dsimp only at e2 p2 q2 n2
  rw [e1] at e2 q2
  exact ⟨e2, le_trans p1 p2, fun h => q2 (q1 h), by omega⟩

theorem tagBal_readRaw {cnt : Nat} {st : PState} {bs : List Nat} {st' : PState}
    (h : readRaw cnt st = .ok (bs, st')) : tagBal st st' := by
  obtain ⟨h1, _, h3⟩ := readRaw_ok h
  rw [h3]
  exact tagBal_advance h1

theorem tagBal_readUInt8 {st : PState} {v : Nat} {st' : PState}
    (h : readUInt8 st = .ok (v, st')) : tagBal st st' := by
  unfold readUInt8 at h
  split at h
  · cases h
  · rename_i p hr
    cases h
    exact tagBal_readRaw hr

theorem tagBal_readUInt16 {st : PState} {v : Nat} {st' : PState}
    (h : readUInt16 st = .ok (v, st')) : tagBal st st' := by
  unfold readUInt16 at h
  split at h
  · cases h
  · rename_i p hr
    cases h
    exact tagBal_readRaw hr

theorem tagBal_readUInt32 {st : PState} {v : Nat} {st' : PState}
    (h : readUInt32 st = .ok (v, st')) : tagBal st st' := by
  unfold readUInt32 at h
  split at h
  · cases h
  · rename_i p hr
    cases h
    exact tagBal_readRaw hr

theorem tagBal_readInt8 {st : PState} {v : Int} {st' : PState}
    (h : readInt8 st = .ok (v, st')) : tagBal st st' := by
  unfold readInt8 at h
  split at h
  · cases h
  · rename_i p hr
    cases h
    exact tagBal_readRaw hr

theorem tagBal_readInt16 {st : PState} {v : Int} {st' : PState}
    (h : readInt16 st = .ok (v, st')) : tagBal st st' := by
  unfold readInt16 at h
  split at h
  · cases h
  · rename_i p hr
    cases h
    exact tagBal_readRaw hr

theorem tagBal_readInt32 {st : PState} {v : Int} {st' : PState}
    (h : readInt32 st = .ok (v, st')) : tagBal st st' := by
  unfold readInt32 at h
  split at h
  · cases h
  · rename_i p hr
    cases h
    exact tagBal_readRaw hr

theorem tagBal_readInt64 {st : PState} {v : Int} {st' : PState}
    (h : readInt64 st = .ok (v, st')) : tagBal st st' := by
  unfold readInt64 at h
  split at h
  · cases h
  · rename_i p hr
    cases h
    exact tagBal_readRaw hr

theorem tagBal_readFloat32 {st : PState} {v : Nat} {st' : PState}
    (h : readFloat32 st = .ok (v, st')) : tagBal st st' := by
  unfold readFloat32 at h
  split at h
  · cases h
  · rename_i p hr
    cases h
    exact tagBal_readRaw hr

theorem tagBal_readFloat64 {st : PState} {v : Nat} {st' : PState}
    (h : readFloat64 st = .ok (v, st')) : tagBal st st' := by
  unfold readFloat64 at h
  split at h
  · cases h
  · rename_i p hr
    cases h
    exact tagBal_readRaw hr

theorem tagBal_readStringHex8 {st : PState} {s : List Nat} {st' : PState}
    (h : readStringHex8 st = .ok (s, st')) : tagBal st st' := by
  unfold readStringHex8 at h
  split at h
  · cases h
  · rename_i p hr
    cases h
    exact tagBal_readRaw hr

theorem tagBal_utf {st : PState} {s : List Nat} {st' : PState}
    (h : utf st = .ok (s, st')) : tagBal st st' := by
  unfold utf at h
  split at h
  · cases h
  · rename_i p hr
    exact tagBal_trans (tagBal_readUInt16 hr) (tagBal_readRaw h)

theorem tagBal_utfLong {st : PState} {s : List Nat} {st' : PState}
    (h : utfLong st = .ok (s, st')) : tagBal st st' := by
  unfold utfLong at h
  split at h
  · cases h
  · rename_i p hr
    split at h
    · cases h
    · split at h
      · cases h
      · rename_i q hr2
        exact tagBal_trans (tagBal_readUInt32 hr)
          (tagBal_trans (tagBal_readUInt32 hr2) (tagBal_readRaw h))

theorem parseReference_bal {st : PState} {v : JVal} {st' : PState}
    (h : parseReference st = .ok (v, st')) : tagBal st st' := by
  unfold parseReference at h
  split at h
  · cases h
  · rename_i p hr
    dsimp only at h
    split at h <;> (cases h; exact tagBal_readInt32 hr)

theorem parseBlockData_bal {st : PState} {v : JVal} {st' : PState}
    (h : parseBlockData st = .ok (v, st')) : tagBal st st' := by
  unfold parseBlockData at h
  split at h
  · cases h
  · rename_i p hr
    split at h
    · cases h
    · rename_i q hr2
      cases h
      exact tagBal_trans (tagBal_readUInt8 hr) (tagBal_readRaw hr2)

theorem parseBlockDataLong_bal {st : PState} {v : JVal} {st' : PState}
    (h : parseBlockDataLong st = .ok (v, st')) : tagBal st st' := by
  unfold parseBlockDataLong at h
  split at h
  · cases h
  · rename_i p hr
    split at h
    · cases h
    · rename_i q hr2
      cases h
      exact tagBal_trans (tagBal_readUInt32 hr) (tagBal_readRaw hr2)

theorem parseString_bal {st : PState} {v : JVal} {st' : PState}
    (h : parseString st = .ok (v, st')) : tagBal1 st st' := by
  unfold parseString at h
  split at h
  · cases h
  · rename_i p hr
    cases h
    exact tagBal_trans1a (tagBal_utf hr) (tagBal1_newHandle _ _)

theorem parseLongString_bal {st : PState} {v : JVal} {st' : PState}
    (h : parseLongString st = .ok (v, st')) : tagBal1 st st' := by
  unfold parseLongString at h
  split at h
  · cases h
  · rename_i p hr
    cases h
    exact tagBal_trans1a (tagBal_utfLong hr) (tagBal1_newHandle _ _)

/-- Ghost bump of a non-handle tag name changes nothing `tagBal` sees. -/
theorem tagBal_bumpAllOnly (st : PState) :
    tagBal st { st with hTagsAll := st.hTagsAll + 1 } :=
  ⟨rfl, le_refl _, fun h => h, rfl⟩

set_option maxRecDepth 8000

/-- The balance invariant for every parser in the mutual block: a successful
run appends exactly one handle per counted ghost tag (one extra for the seven
handle-producing tag parsers themselves), never rewinds, and stays inside the
buffer. -/
theorem balAll : ∀ fuel : Nat,
    (∀ allowed st v st', contentF fuel allowed st = .ok (v, st') → tagBal st st') ∧
    (∀ st v st', parseClassDescF fuel st = .ok (v, st') → tagBal st st') ∧
    (∀ st o st', classDescF fuel st = .ok (o, st') → tagBal st st') ∧
    (∀ st fd st', fieldDescF fuel st = .ok (fd, st') → tagBal st st') ∧
    (∀ n st l st', fieldsLoopF fuel n st = .ok (l, st') → tagBal st st') ∧
    (∀ allowed st l st', annotationsF fuel allowed st = .ok (l, st') → tagBal st st') ∧
    (∀ st v st', parseClassF fuel st = .ok (v, st') → tagBal1 st st') ∧
    (∀ st v st', parseArrayF fuel st = .ok (v, st') → tagBal1 st st') ∧
    (∀ tn st v st', primValueF fuel tn st = .ok (v, st') → tagBal st st') ∧
    (∀ n tn st l st', primLoopF fuel n tn st = .ok (l, st') → tagBal st st') ∧
    (∀ st v st', parseObjectF fuel st = .ok (v, st') → tagBal1 st st') ∧
    (∀ st v st', parseEnumF fuel st = .ok (v, st') → tagBal1 st st') ∧
    (∀ fds acc st r st', valuesLoopF fuel fds acc st = .ok (r, st') → tagBal st st') ∧
    (∀ cls st r st', classDataF fuel cls st = .ok (r, st') → tagBal st st') ∧
    (∀ cls ib st r st', annotationsAsMapF fuel cls ib st = .ok (r, st') → tagBal st st') ∧
    (∀ cls obj st r st', recursiveClassDataF fuel cls obj st = .ok (r, st') →
      tagBal st st') := by
  intro fuel
  induction fuel with
  | zero =>
    refine ⟨?_, ?_, ?_, ?_, ?_, ?_, ?_, ?_, ?_, ?_, ?_, ?_, ?_, ?_, ?_, ?_⟩ <;>
      (intros; rename_i h;
       simp [contentF, parseClassDescF, classDescF, fieldDescF, fieldsLoopF,
         annotationsF, parseClassF, parseArrayF, primValueF, primLoopF,
         parseObjectF, parseEnumF, valuesLoopF, classDataF, annotationsAsMapF,
         recursiveClassDataF] at h)
  | succ f ih =>
    obtain ⟨ihC, ihCD, ihcd, ihFD, ihFL, ihAnn, ihCl, ihArr, ihPV, ihPL,
      ihObj, ihEnum, ihVL, ihCDa, ihAAM, ihRCD⟩ := ih
    refine ⟨?_, ?_, ?_, ?_, ?_, ?_, ?_, ?_, ?_, ?_, ?_, ?_, ?_, ?_, ?_, ?_⟩
    -- contentF
    · intro allowed st v st' h
      unfold contentF at h
      split at h
      · cases h
      · rename_i p b st1 hb
        have hb' := tagBal_readUInt8 hb
        try dsimp only at h
        split at h
        · cases h
        · split at h
          · split at h
            · rename_i heq
              rw [heq] at h
              rw [show bumpSix "Null" (bumpAll "Null" st1) = st1 from rfl] at h
              cases h
              exact hb'
            · rename_i heq
              rw [heq] at h
              rw [show bumpSix "Reference" (bumpAll "Reference" st1) = st1 from rfl] at h
              exact tagBal_trans hb' (parseReference_bal h)
            · rename_i heq
              rw [heq] at h
              rw [show bumpSix "ClassDesc" (bumpAll "ClassDesc" st1) =
                { st1 with hTagsAll := st1.hTagsAll + 1 } from rfl] at h
              exact tagBal_trans hb'
                (tagBal_trans (tagBal_bumpAllOnly st1) (ihCD _ _ _ h))
            · rename_i heq
              rw [heq] at h
              rw [show bumpSix "Object" (bumpAll "Object" st1) =
                { st1 with hTags := st1.hTags + 1, hTagsAll := st1.hTagsAll + 1 }
                from rfl] at h
              exact tagBal_bump_comp hb' (ihObj _ _ _ h)
            · rename_i heq
              rw [heq] at h
              rw [show bumpSix "String" (bumpAll "String" st1) =
                { st1 with hTags := st1.hTags + 1, hTagsAll := st1.hTagsAll + 1 }
                from rfl] at h
              exact tagBal_bump_comp hb' (parseString_bal h)
            · rename_i heq
              rw [heq] at h
              rw [show bumpSix "Array" (bumpAll "Array" st1) =
                { st1 with hTags := st1.hTags + 1, hTagsAll := st1.hTagsAll + 1 }
                from rfl] at h
              exact tagBal_bump_comp hb' (ihArr _ _ _ h)
            · rename_i heq
              rw [heq] at h
              rw [show bumpSix "Class" (bumpAll "Class" st1) =
                { st1 with hTags := st1.hTags + 1, hTagsAll := st1.hTagsAll + 1 }
                from rfl] at h
              exact tagBal_bump_comp hb' (ihCl _ _ _ h)
            · rename_i heq
              rw [heq] at h
              rw [show bumpSix "BlockData" (bumpAll "BlockData" st1) = st1 from rfl] at h
              exact tagBal_trans hb' (parseBlockData_bal h)
            · rename_i heq
              rw [heq] at h
              rw [show bumpSix "EndBlockData" (bumpAll "EndBlockData" st1) = st1
                from rfl] at h
              cases h
              exact hb'
            · rename_i heq
              rw [heq] at h
              rw [show bumpSix "BlockDataLong" (bumpAll "BlockDataLong" st1) = st1
                from rfl] at h
              exact tagBal_trans hb' (parseBlockDataLong_bal h)
            · rename_i heq
              rw [heq] at h
              rw [show bumpSix "LongString" (bumpAll "LongString" st1) =
                { st1 with hTags := st1.hTags + 1, hTagsAll := st1.hTagsAll + 1 }
                from rfl] at h
              exact tagBal_bump_comp hb' (parseLongString_bal h)
            · rename_i heq
              rw [heq] at h
              rw [show bumpSix "Enum" (bumpAll "Enum" st1) =
                { st1 with hTags := st1.hTags + 1, hTagsAll := st1.hTagsAll + 1 }
                from rfl] at h
              exact tagBal_bump_comp hb' (ihEnum _ _ _ h)
            · cases h
          · cases h
    -- parseClassDescF
    · intro st v st' h
      unfold parseClassDescF at h
      split at h
      · cases h
      · rename_i p nm st1 hu
        have h1 := tagBal_utf hu
        try dsimp only at h
        split at h
        · cases h
          exact h1
        · split at h
          · cases h
          · rename_i q uid st2 h8
            have h2 := tagBal_readStringHex8 h8
            try dsimp only at h
            split at h
            · cases h
            · rename_i q2 flags st4 hf
              have h3 := tagBal_newHandle_bumpCD
                (.clazzV (.mk nm uid 0 false [] [] none)) st2
              have h4 := tagBal_readUInt8 hf
              split at h
              · cases h
              · rename_i q3 fc st5 hfc
                have h5 := tagBal_readUInt16 hfc
                split at h
                · cases h
                · rename_i q4 fds st6 hfds
                  have h6 := ihFL _ _ _ _ hfds
                  split at h
                  · cases h
                  · rename_i q5 anns st7 hanns
                    have h7 := ihAnn _ _ _ _ hanns
                    split at h
                    · cases h
                    · rename_i q6 osup st8 hsup
                      have h8' := ihcd _ _ _ hsup
                      cases h
                      refine tagBal_trans h1 (tagBal_trans h2 (tagBal_trans h3
                        (tagBal_trans h4 (tagBal_trans h5 (tagBal_trans h6
                        (tagBal_trans h7 (tagBal_trans h8' (tagBal_setHandle _ _ _))))))))
    -- classDescF
    · intro st o st' h
      unfold classDescF at h
      split at h
      · cases h
      · rename_i p x st1 hc
        have h1 := ihC _ _ _ _ hc
        split at h <;> first
          | (cases h; exact h1)
          | cases h
    -- fieldDescF
    · intro st fd st' h
      unfold fieldDescF at h
      split at h
      · cases h
      · rename_i p td st1 ht
        have h1 := tagBal_readUInt8 ht
        try dsimp only at h
        split at h
        · cases h
        · rename_i q nm st2 hn
          have h2 := tagBal_utf hn
          split at h
          · split at h
            · cases h
            · rename_i q2 cn st3 hcn
              have h3 := ihC _ _ _ _ hcn
              split at h
              · cases h
                exact tagBal_trans h1 (tagBal_trans h2 h3)
              · cases h
          · cases h
            exact tagBal_trans h1 h2
    -- fieldsLoopF
    · intro n st l st' h
      match n, h with
      | 0, h =>
        cases h
        exact tagBal_refl st
      | n + 1, h =>
        unfold fieldsLoopF at h
        split at h
        · cases h
        · rename_i p fd st1 hfd
          split at h
          · cases h
          · rename_i q fds st2 hfds
            cases h
            exact tagBal_trans (ihFD _ _ _ hfd) (ihFL _ _ _ _ hfds)
    -- annotationsF
    · intro allowed st l st' h
      unfold annotationsF at h
      split at h
      · cases h
      · rename_i p v st1 hc
        have h1 := ihC _ _ _ _ hc
        split at h
        · cases h
          exact h1
        · split at h
          · cases h
          · rename_i q vs st2 hrec
            cases h
            exact tagBal_trans h1 (ihAnn _ _ _ _ hrec)
    -- parseClassF
    · intro st v st' h
      unfold parseClassF at h
      split at h
      · cases h
      · rename_i p ocls st1 hc
        cases h
        exact tagBal_trans1a (ihcd _ _ _ hc) (tagBal1_newHandle _ _)
    -- parseArrayF
    · intro st v st' h
      unfold parseArrayF at h
      split at h
      · cases h
      · rename_i p ocls st1 hc
        have h1 := ihcd _ _ _ hc
        try dsimp only at h
        split at h
        · cases h
        · rename_i q size st3 hsz
          have h2 := tagBal1_newHandle (.obj [(kClass, clsVal ocls)]) st1
          have h3 := tagBal_readInt32 hsz
          have h4 := tagBal_setHandle st1.handles.length
            (.obj (AList.insert [(kClass, clsVal ocls)] kLength (.i32 size))) st3
          split at h
          · cases h
            exact tagBal_trans1a h1 (tagBal1_trans1b (tagBal1_trans1b h2 h3) h4)
          · split at h
            · split at h
              · cases h
              · rename_i q2 elems st5 hel
                cases h
                exact tagBal_trans1a h1 (tagBal1_trans1b (tagBal1_trans1b
                  (tagBal1_trans1b h2 h3) h4) (ihPL _ _ _ _ _ hel))
            · cases h
    -- primValueF
    · intro tn st v st' h
      unfold primValueF at h
      split at h <;>
        first
        | cases h
        | (split at h
           · cases h
           · rename_i hread
             cases h
             first
             | exact tagBal_readInt8 hread
             | exact tagBal_readUInt16 hread
             | exact tagBal_readFloat64 hread
             | exact tagBal_readFloat32 hread
             | exact tagBal_readInt32 hread
             | exact tagBal_readInt64 hread
             | exact tagBal_readInt16 hread)
        | exact ihC _ _ _ _ h
    -- primLoopF
    · intro n tn st l st' h
      match n, h with
      | 0, h =>
        cases h
        exact tagBal_refl st
      | n + 1, h =>
        unfold primLoopF at h
        split at h
        · cases h
        · rename_i p v st1 hv
          split at h
          · cases h
          · rename_i q vs st2 hvs
            cases h
            exact tagBal_trans (ihPV _ _ _ _ hv) (ihPL _ _ _ _ _ hvs)
    -- parseObjectF
    · intro st v st' h
      unfold parseObjectF at h
      split at h
      · cases h
      · rename_i p ocls st1 hc
        have h1 := ihcd _ _ _ hc
        try dsimp only at h
        split at h
        · cases h
        · rename_i q objMap' st3 hwalk
          cases h
          have h2 := tagBal1_newHandle JVal.null st1
          have h3 : tagBal (newHandle JVal.null st1) st3 := by
            rcases hoc : ocls with _ | cls
            · rw [hoc] at hwalk
              cases hwalk
              exact tagBal_refl _
            · rw [hoc] at hwalk
              exact ihRCD _ _ _ _ _ hwalk
          exact tagBal_trans1a h1 (tagBal1_trans1b (tagBal1_trans1b h2 h3)
            (tagBal_setHandle _ _ _))
    -- parseEnumF
    · intro st v st' h
      unfold parseEnumF at h
      split at h
      · cases h
      · rename_i p ocls st1 hc
        have h1 := ihcd _ _ _ hc
        try dsimp only at h
        split at h
        · cases h
        · rename_i q c st3 hcon
          cases h
          exact tagBal_trans1a h1 (tagBal1_trans1b (tagBal1_trans1b
            (tagBal1_newHandle JVal.null st1) (ihC _ _ _ _ hcon))
            (tagBal_setHandle _ _ _))
    -- valuesLoopF
    · intro fds acc st r st' h
      match fds, h with
      | [], h =>
        cases h
        exact tagBal_refl st
      | fd :: rest, h =>
        unfold valuesLoopF at h
        split at h
        · split at h
          · cases h
          · rename_i p v st1 hv
            exact tagBal_trans (ihPV _ _ _ _ hv) (ihVL _ _ _ _ _ h)
        · cases h
    -- classDataF
    · intro cls st r st' h
      unfold classDataF at h
      split at h
      · exact ihVL _ _ _ _ _ h
      · split at h
        · exact ihAAM _ _ _ _ _ h
        · split at h
          · cases h
          · split at h
            · exact ihAAM _ _ _ _ _ h
            · cases h
    -- annotationsAsMapF
    · intro cls ib st r st' h
      unfold annotationsAsMapF at h
      try dsimp only at h
      split at h
      · cases h
      · rename_i p data st1 hstart
        have h1 : tagBal st st1 := by
          rcases ib with _ | _
          · rw [if_neg (by simp)] at hstart
            exact ihVL _ _ _ _ _ hstart
          · rw [if_pos rfl] at hstart
            cases hstart
            exact tagBal_refl st
        split at h
        · cases h
        · rename_i q anns st2 hanns
          have h2 := ihAnn _ _ _ _ hanns
          split at h
          · cases h
            exact tagBal_trans h1 h2
          · split at h
            · split at h
              · cases h
              · cases h
                exact tagBal_trans h1 h2
            · cases h
              exact tagBal_trans h1 h2
    -- recursiveClassDataF
    · intro cls obj st r st' h
      unfold recursiveClassDataF at h
      try dsimp only at h
      split at h
      · cases h
      · rename_i p obj1 st1 hstep
        have h1 : tagBal st st1 := by
          rcases hsup : cls.super with _ | sup
          · rw [hsup] at hstep
            cases hstep
            exact tagBal_refl st
          · rw [hsup] at hstep
            exact ihRCD _ _ _ _ _ hstep
        split at h
        · split at h
          · cases h
          · rename_i q flds st2 hcd
            cases h
            exact tagBal_trans h1 (ihCDa _ _ _ _ hcd)
        · cases h

/-- The content loop preserves the balance invariant. -/
theorem contentLoop_bal (fuel : Nat) : ∀ steps st vs st',
    contentLoop fuel steps st = .ok (vs, st') → tagBal st st' := by
  intro steps
  induction steps with
  | zero =>
    intro st vs st' h
    unfold contentLoop at h
    split at h
    · cases h
    · cases h
      exact tagBal_refl st
  | succ n ihn =>
    intro st vs st' h
    unfold contentLoop at h
    split at h
    · split at h
      · cases h
      · rename_i p v st1 hc
        split at h
        · cases h
        · rename_i q vs2 st2 hl
          cases h
          exact tagBal_trans ((balAll fuel).1 _ _ _ _ hc) (ihn _ _ _ hl)
    · cases h
      exact tagBal_refl st

theorem magic_ok {st st1 : PState} (h : magic st = .ok st1) :
    st1 = { st with pos := st.pos + 2 } ∧ st.pos + 2 ≤ st.buf.length := by
  unfold magic at h
  split at h
  · cases h
  · rename_i p v st2 hr
    split at h
    · cases h
    · cases h
      obtain ⟨h1, _, h3⟩ := readUInt16_ok hr
      exact ⟨h3, h1⟩

theorem version_ok {st st1 : PState} (h : version st = .ok st1) :
    st1 = { st with pos := st.pos + 2 } ∧ st.pos + 2 ≤ st.buf.length := by
  unfold version at h
  split at h
  · cases h
  · rename_i p v st2 hr
    split at h
    · cases h
    · cases h
      obtain ⟨h1, _, h3⟩ := readUInt16_ok hr
      exact ⟨h3, h1⟩

/-- Successful parses run the content loop from position 4 with empty
handles and counters. -/
theorem parseSO_ok {fuel : Nat} {buf : List Nat} {vs : List JVal} {st' : PState}
    (h : parseSO fuel buf = .ok (vs, st')) :
    contentLoop fuel buf.length ⟨buf, 4, [], 0, 0⟩ = .ok (vs, st') ∧
      4 ≤ buf.length := by
  unfold parseSO at h
  split at h
  · cases h
  · rename_i st1 hm
    split at h
    · cases h
    · rename_i st2 hv
      obtain ⟨e1, b1⟩ := magic_ok hm
      rw [e1] at hv
      obtain ⟨e2, b2⟩ := version_ok hv
      dsimp only [initState] at e1 e2 b1 b2 ⊢
      rw [e2] at h
      exact ⟨h, by omega⟩

/-- Array tag followed by a ClassDesc with a one-byte name: two
handle-producing tags are observed but only one handle is registered. -/
def c4Input : List Nat := [172, 237, 0, 5, 117, 114, 0, 1, 97, 0, 0, 0, 0]

/-- **C4 counterexample.**  On this successfully parsing stream two
handle-producing tags are observed (`hTagsAll = 2`: the Array tag and the
ClassDesc tag), but the final handle table has length 1: the ClassDesc whose
name fails the length check registers nothing yet aborts nothing. -/
theorem C4_counterexample :
    parseSO 20 c4Input =
      .ok ([JVal.null],
        ⟨c4Input, 13, [.obj [(kClass, .null), (kLength, .i32 0)]], 1, 2⟩) ∧
    (1 : Nat) ≠ 2 := ⟨rfl, by decide⟩

/-- **C4 (amended).** For every input that parses successfully, the final
length of the handle table equals the number of String, LongString, Class,
Array, Object and Enum tags observed plus the number of ClassDesc tags whose
UTF name passes the length-≥-2 check (the ghost counter `hTags`); a ClassDesc
tag with a shorter name appends no entry, and Null, Reference, BlockData,
BlockDataLong and EndBlockData append none. -/
theorem C4_handle_count (fuel : Nat) (buf : List Nat) (vs : List JVal)
    (st' : PState) (h : parseSO fuel buf = .ok (vs, st')) :
    st'.handles.length = st'.hTags := by
  obtain ⟨hloop, _⟩ := parseSO_ok h
  obtain ⟨_, _, _, hn⟩ := contentLoop_bal fuel _ _ _ _ hloop
  simpa using hn

/-- Witness for the amended C4 at a concrete successfully parsed stream. -/
theorem C4_handle_count_witness :
    (⟨c4Input, 13, [.obj [(kClass, .null), (kLength, .i32 0)]], 1, 2⟩ :
      PState).handles.length =
    (⟨c4Input, 13, [.obj [(kClass, .null), (kLength, .i32 0)]], 1, 2⟩ :
      PState).hTags :=
  C4_handle_count 20 c4Input [JVal.null]
    ⟨c4Input, 13, [.obj [(kClass, .null), (kLength, .i32 0)]], 1, 2⟩ rfl

/-! ## C3: appending bytes to the buffer cannot change a successful parse

`extQ Q st` is `st` over the buffer extended with `Q`.  Every parser that
succeeds on the original buffer behaves identically on the extended one. -/

def extQ (Q : List Nat) (st : PState) : PState := { st with buf := st.buf ++ Q }

theorem bytesAt_ext {Q : List Nat} {st : PState} {cnt : Nat}
    (h : st.pos + cnt ≤ st.buf.length) : bytesAt (extQ Q st) cnt = bytesAt st cnt := by
  unfold bytesAt extQ
  dsimp only
  rw [List.drop_append_of_le_length (by omega)]
  rw [List.take_append_of_le_length (by simp; omega)]

theorem readRaw_ext {Q : List Nat} {cnt : Nat} {st : PState} {bs : List Nat}
    {st' : PState} (h : readRaw cnt st = .ok (bs, st')) :
    readRaw cnt (extQ Q st) = .ok (bs, extQ Q st') := by
  obtain ⟨h1, h2, h3⟩ := readRaw_ok h
  subst h2
  subst h3
  unfold readRaw
  rw [if_pos (by simp [extQ]; omega)]
  rw [show bytesAt (extQ Q st) cnt = bytesAt st cnt from bytesAt_ext h1]
  rfl

theorem readUInt8_ext {Q : List Nat} {st : PState} {v : Nat} {st' : PState}
    (h : readUInt8 st = .ok (v, st')) : readUInt8 (extQ Q st) = .ok (v, extQ Q st') := by
  unfold readUInt8 at h ⊢
  split at h
  · cases h
  · rename_i p hr
    cases h
    rw [readRaw_ext hr]

theorem readUInt16_ext {Q : List Nat} {st : PState} {v : Nat} {st' : PState}
    (h : readUInt16 st = .ok (v, st')) : readUInt16 (extQ Q st) = .ok (v, extQ Q st') := by
  unfold readUInt16 at h ⊢
  split at h
  · cases h
  · rename_i p hr
    cases h
    rw [readRaw_ext hr]

theorem readUInt32_ext {Q : List Nat} {st : PState} {v : Nat} {st' : PState}
    (h : readUInt32 st = .ok (v, st')) : readUInt32 (extQ Q st) = .ok (v, extQ Q st') := by
  unfold readUInt32 at h ⊢
  split at h
  · cases h
  · rename_i p hr
    cases h
    rw [readRaw_ext hr]

theorem readInt8_ext {Q : List Nat} {st : PState} {v : Int} {st' : PState}
    (h : readInt8 st = .ok (v, st')) : readInt8 (extQ Q st) = .ok (v, extQ Q st') := by
  unfold readInt8 at h ⊢
  split at h
  · cases h
  · rename_i p hr
    cases h
    rw [readRaw_ext hr]

theorem readInt16_ext {Q : List Nat} {st : PState} {v : Int} {st' : PState}
    (h : readInt16 st = .ok (v, st')) : readInt16 (extQ Q st) = .ok (v, extQ Q st') := by
  unfold readInt16 at h ⊢
  split at h
  · cases h
  · rename_i p hr
    cases h
    rw [readRaw_ext hr]

theorem readInt32_ext {Q : List Nat} {st : PState} {v : Int} {st' : PState}
    (h : readInt32 st = .ok (v, st')) : readInt32 (extQ Q st) = .ok (v, extQ Q st') := by
  unfold readInt32 at h ⊢
  split at h
  · cases h
  · rename_i p hr
    cases h
    rw [readRaw_ext hr]

theorem readInt64_ext {Q : List Nat} {st : PState} {v : Int} {st' : PState}
    (h : readInt64 st = .ok (v, st')) : readInt64 (extQ Q st) = .ok (v, extQ Q st') := by
  unfold readInt64 at h ⊢
  split at h
  · cases h
  · rename_i p hr
    cases h
    rw [readRaw_ext hr]

theorem readFloat32_ext {Q : List Nat} {st : PState} {v : Nat} {st' : PState}
    (h : readFloat32 st = .ok (v, st')) : readFloat32 (extQ Q st) = .ok (v, extQ Q st') := by
  unfold readFloat32 at h ⊢
  split at h
  · cases h
  · rename_i p hr
    cases h
    rw [readRaw_ext hr]

theorem readFloat64_ext {Q : List Nat} {st : PState} {v : Nat} {st' : PState}
    (h : readFloat64 st = .ok (v, st')) : readFloat64 (extQ Q st) = .ok (v, extQ Q st') := by
  unfold readFloat64 at h ⊢
  split at h
  · cases h
  · rename_i p hr
    cases h
    rw [readRaw_ext hr]

theorem readStringHex8_ext {Q : List Nat} {st : PState} {s : List Nat} {st' : PState}
    (h : readStringHex8 st = .ok (s, st')) :
    readStringHex8 (extQ Q st) = .ok (s, extQ Q st') := by
  unfold readStringHex8 at h ⊢
  split at h
  · cases h
  · rename_i p hr
    cases h
    rw [readRaw_ext hr]

theorem utf_ext {Q : List Nat} {st : PState} {s : List Nat} {st' : PState}
    (h : utf st = .ok (s, st')) : utf (extQ Q st) = .ok (s, extQ Q st') := by
  unfold utf at h ⊢
  split at h
  · cases h
  · rename_i p hr
    rw [readUInt16_ext hr]
    exact readRaw_ext h

theorem utfLong_ext {Q : List Nat} {st : PState} {s : List Nat} {st' : PState}
    (h : utfLong st = .ok (s, st')) : utfLong (extQ Q st) = .ok (s, extQ Q st') := by
  unfold utfLong at h ⊢
  split at h
  · cases h
  · rename_i p hr
    rw [readUInt32_ext hr]
    dsimp only
    split at h
    · cases h
    · rename_i hz
      rw [if_neg hz]
      split at h
      · cases h
      · rename_i q hr2
        rw [readUInt32_ext hr2]
        exact readRaw_ext h

theorem parseReference_ext {Q : List Nat} {st : PState} {v : JVal} {st' : PState}
    (h : parseReference st = .ok (v, st')) :
    parseReference (extQ Q st) = .ok (v, extQ Q st') := by
  unfold parseReference at h ⊢
  split at h
  · cases h
  · rename_i p hr
    rw [readInt32_ext hr]
    dsimp only at h ⊢
    split at h <;> rename_i hc
    · rw [if_pos (by simpa [extQ] using hc)]
      cases h
      rfl
    · rw [if_neg (by simpa [extQ] using hc)]
      cases h
      rfl

theorem parseBlockData_ext {Q : List Nat} {st : PState} {v : JVal} {st' : PState}
    (h : parseBlockData st = .ok (v, st')) :
    parseBlockData (extQ Q st) = .ok (v, extQ Q st') := by
  unfold parseBlockData at h ⊢
  split at h
  · cases h
  · rename_i p hr
    rw [readUInt8_ext hr]
    dsimp only
    split at h
    · cases h
    · rename_i q hr2
      rw [readRaw_ext hr2]
      cases h
      rfl

theorem parseBlockDataLong_ext {Q : List Nat} {st : PState} {v : JVal} {st' : PState}
    (h : parseBlockDataLong st = .ok (v, st')) :
    parseBlockDataLong (extQ Q st) = .ok (v, extQ Q st') := by
  unfold parseBlockDataLong at h ⊢
  split at h
  · cases h
  · rename_i p hr
    rw [readUInt32_ext hr]
    dsimp only
    split at h
    · cases h
    · rename_i q hr2
      rw [readRaw_ext hr2]
      cases h
      rfl

theorem parseString_ext {Q : List Nat} {st : PState} {v : JVal} {st' : PState}
    (h : parseString st = .ok (v, st')) :
    parseString (extQ Q st) = .ok (v, extQ Q st') := by
  unfold parseString at h ⊢
  split at h
  · cases h
  · rename_i p hr
    rw [utf_ext hr]
    cases h
    rfl

theorem parseLongString_ext {Q : List Nat} {st : PState} {v : JVal} {st' : PState}
    (h : parseLongString st = .ok (v, st')) :
    parseLongString (extQ Q st) = .ok (v, extQ Q st') := by
  unfold parseLongString at h ⊢
  split at h
  · cases h
  · rename_i p hr
    rw [utfLong_ext hr]
    cases h
    rfl

theorem extQ_newHandle (Q : List Nat) (v : JVal) (st : PState) :
    newHandle v (extQ Q st) = extQ Q (newHandle v st) := rfl

theorem extQ_setHandle (Q : List Nat) (i : Nat) (v : JVal) (st : PState) :
    setHandle i v (extQ Q st) = extQ Q (setHandle i v st) := rfl

theorem extQ_bumpCD (Q : List Nat) (st : PState) :
    bumpCD (extQ Q st) = extQ Q (bumpCD st) := rfl

theorem extQ_handles (Q : List Nat) (st : PState) :
    (extQ Q st).handles = st.handles := rfl

theorem extQ_bumps (Q : List Nat) (nm : String) (st : PState) :
    bumpSix nm (bumpAll nm (extQ Q st)) = extQ Q (bumpSix nm (bumpAll nm st)) := by
  unfold bumpSix bumpAll extQ
  split <;> split <;> rfl

/-- Every parser in the mutual block is insensitive to bytes appended beyond
the region it successfully consumed. -/
theorem extAll (Q : List Nat) : ∀ fuel : Nat,
    (∀ allowed st v st', contentF fuel allowed st = .ok (v, st') →
      contentF fuel allowed (extQ Q st) = .ok (v, extQ Q st')) ∧
    (∀ st v st', parseClassDescF fuel st = .ok (v, st') →
      parseClassDescF fuel (extQ Q st) = .ok (v, extQ Q st')) ∧
    (∀ st o st', classDescF fuel st = .ok (o, st') →
      classDescF fuel (extQ Q st) = .ok (o, extQ Q st')) ∧
    (∀ st fd st', fieldDescF fuel st = .ok (fd, st') →
      fieldDescF fuel (extQ Q st) = .ok (fd, extQ Q st')) ∧
    (∀ n st l st', fieldsLoopF fuel n st = .ok (l, st') →
      fieldsLoopF fuel n (extQ Q st) = .ok (l, extQ Q st')) ∧
    (∀ allowed st l st', annotationsF fuel allowed st = .ok (l, st') →
      annotationsF fuel allowed (extQ Q st) = .ok (l, extQ Q st')) ∧
    (∀ st v st', parseClassF fuel st = .ok (v, st') →
      parseClassF fuel (extQ Q st) = .ok (v, extQ Q st')) ∧
    (∀ st v st', parseArrayF fuel st = .ok (v, st') →
      parseArrayF fuel (extQ Q st) = .ok (v, extQ Q st')) ∧
    (∀ tn st v st', primValueF fuel tn st = .ok (v, st') →
      primValueF fuel tn (extQ Q st) = .ok (v, extQ Q st')) ∧
    (∀ n tn st l st', primLoopF fuel n tn st = .ok (l, st') →
      primLoopF fuel n tn (extQ Q st) = .ok (l, extQ Q st')) ∧
    (∀ st v st', parseObjectF fuel st = .ok (v, st') →
      parseObjectF fuel (extQ Q st) = .ok (v, extQ Q st')) ∧
    (∀ st v st', parseEnumF fuel st = .ok (v, st') →
      parseEnumF fuel (extQ Q st) = .ok (v, extQ Q st')) ∧
    (∀ fds acc st r st', valuesLoopF fuel fds acc st = .ok (r, st') →
      valuesLoopF fuel fds acc (extQ Q st) = .ok (r, extQ Q st')) ∧
    (∀ cls st r st', classDataF fuel cls st = .ok (r, st') →
      classDataF fuel cls (extQ Q st) = .ok (r, extQ Q st')) ∧
    (∀ cls ib st r st', annotationsAsMapF fuel cls ib st = .ok (r, st') →
      annotationsAsMapF fuel cls ib (extQ Q st) = .ok (r, extQ Q st')) ∧
    (∀ cls obj st r st', recursiveClassDataF fuel cls obj st = .ok (r, st') →
      recursiveClassDataF fuel cls obj (extQ Q st) = .ok (r, extQ Q st')) := by
  intro fuel
  induction fuel with
  | zero =>
    refine ⟨?_, ?_, ?_, ?_, ?_, ?_, ?_, ?_, ?_, ?_, ?_, ?_, ?_, ?_, ?_, ?_⟩ <;>
      (intros; rename_i h;
       simp [contentF, parseClassDescF, classDescF, fieldDescF, fieldsLoopF,
         annotationsF, parseClassF, parseArrayF, primValueF, primLoopF,
         parseObjectF, parseEnumF, valuesLoopF, classDataF, annotationsAsMapF,
         recursiveClassDataF] at h)
  | succ f ih =>
    obtain ⟨ihC, ihCD, ihcd, ihFD, ihFL, ihAnn, ihCl, ihArr, ihPV, ihPL,
      ihObj, ihEnum, ihVL, ihCDa, ihAAM, ihRCD⟩ := ih
    refine ⟨?_, ?_, ?_, ?_, ?_, ?_, ?_, ?_, ?_, ?_, ?_, ?_, ?_, ?_, ?_, ?_⟩
    -- contentF
    · intro allowed st v st' h
      unfold contentF at h ⊢
      split at h
      · cases h
      · rename_i p b st1 hb
        rw [readUInt8_ext hb]
        dsimp only at h ⊢
        split at h
        · cases h
        · rename_i htc
          rw [if_neg htc]
          split at h
          · rename_i hallow
            rw [if_pos hallow]
            split at h <;>
              first
              | (rename_i heq
                 rw [heq] at h ⊢
                 try dsimp only at h ⊢
                 rw [extQ_bumps]
                 first
                 | (cases h; rfl)
                 | exact parseReference_ext h
                 | exact parseString_ext h
                 | exact parseBlockData_ext h
                 | exact parseBlockDataLong_ext h
                 | exact parseLongString_ext h
                 | exact ihCD _ _ _ h
                 | exact ihObj _ _ _ h
                 | exact ihArr _ _ _ h
                 | exact ihCl _ _ _ h
                 | exact ihEnum _ _ _ h)
              | cases h
          · rename_i hallow
            cases h
    -- parseClassDescF
    · intro st v st' h
      unfold parseClassDescF at h ⊢
      split at h
      · cases h
      · rename_i p nm st1 hu
        rw [utf_ext hu]
        dsimp only at h ⊢
        split at h <;> rename_i hlen
        · rw [if_pos hlen]
          cases h
          rfl
        · rw [if_neg hlen]
          split at h
          · cases h
          · rename_i q uid st2 h8
            rw [readStringHex8_ext h8]
            dsimp only at h ⊢
            rw [extQ_handles, extQ_newHandle, extQ_bumpCD]
            split at h
            · cases h
            · rename_i q2 flags st4 hf
              rw [readUInt8_ext hf]
              dsimp only at h ⊢
              split at h
              · cases h
              · rename_i q3 fc st5 hfc
                rw [readUInt16_ext hfc]
                dsimp only at h ⊢
                split at h
                · cases h
                · rename_i q4 fds st6 hfds
                  rw [ihFL _ _ _ _ hfds]
                  try dsimp only
                  split at h
                  · cases h
                  · rename_i q5 anns st7 hanns
                    rw [ihAnn _ _ _ _ hanns]
                    try dsimp only
                    split at h
                    · cases h
                    · rename_i q6 osup st8 hsup
                      rw [ihcd _ _ _ hsup]
                      try dsimp only
                      cases h
                      rw [extQ_setHandle]
    -- classDescF
    · intro st o st' h
      unfold classDescF at h ⊢
      split at h
      · cases h
      · rename_i p x st1 hc
        rw [ihC _ _ _ _ hc]
        try dsimp only
        split at h <;> (cases h <;> rfl)
    -- fieldDescF
    · intro st fd st' h
      unfold fieldDescF at h ⊢
      split at h
      · cases h
      · rename_i p td st1 ht
        rw [readUInt8_ext ht]
        dsimp only at h ⊢
        split at h
        · cases h
        · rename_i q nm st2 hn
          rw [utf_ext hn]
          dsimp only at h ⊢
          split at h <;> rename_i hbr
          · rw [if_pos hbr]
            split at h
            · cases h
            · rename_i q2 cn st3 hcn
              rw [ihC _ _ _ _ hcn]
              try dsimp only
              split at h <;> (cases h <;> rfl)
          · rw [if_neg hbr]
            cases h
            rfl
    -- fieldsLoopF
    · intro n st l st' h
      match n, h with
      | 0, h =>
        cases h
        rfl
      | n + 1, h =>
        unfold fieldsLoopF at h ⊢
        split at h
        · cases h
        · rename_i p fd st1 hfd
          rw [ihFD _ _ _ hfd]
          try dsimp only
          split at h
          · cases h
          · rename_i q fds st2 hfds
            rw [ihFL _ _ _ _ hfds]
            try dsimp only
            cases h
            rfl
    -- annotationsF
    · intro allowed st l st' h
      unfold annotationsF at h ⊢
      split at h
      · cases h
      · rename_i p v st1 hc
        rw [ihC _ _ _ _ hc]
        try dsimp only
        split at h
        · cases h
          rfl
        · rename_i hv
          split at h
          · cases h
          · rename_i q vs st2 hrec
            rw [ihAnn _ _ _ _ hrec]
            try dsimp only
            cases h
            rfl
    -- parseClassF
    · intro st v st' h
      unfold parseClassF at h ⊢
      split at h
      · cases h
      · rename_i p ocls st1 hc
        rw [ihcd _ _ _ hc]
        try dsimp only
        cases h
        rw [extQ_newHandle]
    -- parseArrayF
    · intro st v st' h
      unfold parseArrayF at h ⊢
      split at h
      · cases h
      · rename_i p ocls st1 hc
        rw [ihcd _ _ _ hc]
        dsimp only at h ⊢
        rw [extQ_handles, extQ_newHandle]
        split at h
        · cases h
        · rename_i q size st3 hsz
          rw [readInt32_ext hsz]
          dsimp only at h ⊢
          rw [extQ_setHandle]
          split at h
          · cases h
            rfl
          · rename_i cls
            split at h <;> rename_i hpk
            · rw [if_pos hpk]
              split at h
              · cases h
              · rename_i q2 elems st5 hel
                rw [ihPL _ _ _ _ _ hel]
                try dsimp only
                cases h
                rfl
            · cases h
    -- primValueF
    · intro tn st v st' h
      unfold primValueF at h ⊢
      split at h <;>
        first
        | cases h
        | (split at h
           · cases h
           · rename_i hread
             cases h
             first
             | (rw [readInt8_ext hread]; try rfl)
             | (rw [readUInt16_ext hread]; try rfl)
             | (rw [readFloat64_ext hread]; try rfl)
             | (rw [readFloat32_ext hread]; try rfl)
             | (rw [readInt32_ext hread]; try rfl)
             | (rw [readInt64_ext hread]; try rfl)
             | (rw [readInt16_ext hread]; try rfl))
        | exact ihC _ _ _ _ h
    -- primLoopF
    · intro n tn st l st' h
      match n, h with
      | 0, h =>
        cases h
        rfl
      | n + 1, h =>
        unfold primLoopF at h ⊢
        split at h
        · cases h
        · rename_i p v st1 hv
          rw [ihPV _ _ _ _ hv]
          try dsimp only
          split at h
          · cases h
          · rename_i q vs st2 hvs
            rw [ihPL _ _ _ _ _ hvs]
            try dsimp only
            cases h
            rfl
    -- parseObjectF
    · intro st v st' h
      unfold parseObjectF at h ⊢
      split at h
      · cases h
      · rename_i p ocls st1 hc
        rw [ihcd _ _ _ hc]
        dsimp only at h ⊢
        rw [extQ_handles, extQ_newHandle]
        split at h
        · cases h
        · rename_i q objMap' st3 hwalk
          have hwalk' : (match ocls with
              | none => Except.ok ([(kClass, clsVal ocls), (kExtends, .obj [])], extQ Q (newHandle .null st1))
              | some cls => recursiveClassDataF f cls
                  [(kClass, clsVal ocls), (kExtends, .obj [])] (extQ Q (newHandle .null st1))) =
              .ok (objMap', extQ Q st3) := by
            rcases hoc : ocls with _ | cls
            · rw [hoc] at hwalk
              cases hwalk
              rfl
            · rw [hoc] at hwalk
              exact ihRCD _ _ _ _ _ hwalk
          rw [hwalk']
          try dsimp only
          cases h
          rfl
    -- parseEnumF
    · intro st v st' h
      unfold parseEnumF at h ⊢
      split at h
      · cases h
      · rename_i p ocls st1 hc
        rw [ihcd _ _ _ hc]
        dsimp only at h ⊢
        rw [extQ_handles, extQ_newHandle]
        split at h
        · cases h
        · rename_i q c st3 hcon
          rw [ihC _ _ _ _ hcon]
          try dsimp only
          cases h
          rw [extQ_setHandle]
    -- valuesLoopF
    · intro fds acc st r st' h
      match fds, h with
      | [], h =>
        cases h
        rfl
      | fd :: rest, h =>
        unfold valuesLoopF at h ⊢
        split at h <;> rename_i hpk
        · rw [if_pos hpk]
          split at h
          · cases h
          · rename_i p v st1 hv
            rw [ihPV _ _ _ _ hv]
            try dsimp only
            exact ihVL _ _ _ _ _ h
        · cases h
    -- classDataF
    · intro cls st r st' h
      unfold classDataF at h ⊢
      split at h <;> rename_i h2
      · rw [if_pos h2]
        exact ihVL _ _ _ _ _ h
      · rw [if_neg h2]
        split at h <;> rename_i h3
        · rw [if_pos h3]
          exact ihAAM _ _ _ _ _ h
        · rw [if_neg h3]
          split at h <;> rename_i h4
          · cases h
          · rw [if_neg h4]
            split at h <;> rename_i h5
            · rw [if_pos h5]
              exact ihAAM _ _ _ _ _ h
            · cases h
    -- annotationsAsMapF
    · intro cls ib st r st' h
      unfold annotationsAsMapF at h ⊢
      dsimp only at h ⊢
      split at h
      · cases h
      · rename_i p data st1 hstart
        have hstart' : (if ib then Except.ok ([], extQ Q st)
            else valuesLoopF f cls.fields [] (extQ Q st)) = .ok (data, extQ Q st1) := by
          rcases ib with _ | _
          · rw [if_neg (by simp)] at hstart ⊢
            exact ihVL _ _ _ _ _ hstart
          · rw [if_pos rfl] at hstart ⊢
            cases hstart
            rfl
        rw [hstart']
        try dsimp only
        split at h
        · cases h
        · rename_i q anns st2 hanns
          rw [ihAnn _ _ _ _ hanns]
          try dsimp only
          split at h <;> rename_i hib
          · rw [if_pos hib]
            cases h
            rfl
          · rw [if_neg hib]
            split at h <;> rename_i hpp
            · try rw [hpp]
              split at h
              · cases h
              · rename_i d hd
                try rw [hd]
                cases h
                rfl
            · try rw [hpp]
              cases h
              rfl
    -- recursiveClassDataF
    · intro cls obj st r st' h
      unfold recursiveClassDataF at h ⊢
      dsimp only at h ⊢
      split at h
      · cases h
      · rename_i p obj1 st1 hstep
        have hstep' : (match cls.super with
            | some sup => recursiveClassDataF f sup obj (extQ Q st)
            | none => Except.ok (obj, extQ Q st)) = .ok (obj1, extQ Q st1) := by
          rcases hsup : cls.super with _ | sup
          · rw [hsup] at hstep
            cases hstep
            rfl
          · rw [hsup] at hstep
            exact ihRCD _ _ _ _ _ hstep
        rw [hstep']
        try dsimp only
        split at h <;> rename_i hlk
        · rename_i ext2
          try rw [hlk]
          split at h
          · cases h
          · rename_i q flds st2 hcd
            rw [ihCDa _ _ _ _ hcd]
            try dsimp only
            cases h
            rfl
        · cases h

/-! ## C3: concatenation of complete streams -/

theorem getD_append_full (l q : List Nat) (d : Nat) :
    (l ++ q).getD l.length d = q.getD 0 d := by
  simp [List.getD, List.getElem?_append_right (le_refl l.length)]

/-- At the end of the original buffer, the next content tag read from the
appended bytes is the first byte of `Q`; when that byte is `0xAC` the
dispatcher rejects it as an unknown type code. -/
theorem contentF_at_end {fuel : Nat} (Q : List Nat) (st : PState) (hf : 1 ≤ fuel)
    (hpos : st.pos = st.buf.length) (hQ1 : 1 ≤ Q.length)
    (hQ0 : Q.getD 0 0 % 256 = 172) :
    contentF fuel none (extQ Q st) = .error (.unknownType 172) := by
  obtain ⟨f, rfl⟩ : ∃ f, fuel = f + 1 := ⟨fuel - 1, by omega⟩
  have hlt : (extQ Q st).pos < (extQ Q st).buf.length := by
    show st.pos < (st.buf ++ Q).length
    rw [List.length_append]
    omega
  have hbyte : (extQ Q st).buf.getD (extQ Q st).pos 0 % 256 = 172 := by
    show (st.buf ++ Q).getD st.pos 0 % 256 = 172
    rw [hpos, getD_append_full]
    exact hQ0
  have hb : readUInt8 (extQ Q st) =
      .ok (172, { extQ Q st with pos := (extQ Q st).pos + 1 }) := by
    unfold readUInt8
    rw [readRaw_of_le (by omega)]
    try dsimp only
    rw [bytesAt_one hlt, beVal_singleton, hbyte]
  unfold contentF
  rw [hb]
  try rfl

/-- The content loop on the extended buffer replays the original run step by
step and then chokes on the first appended byte. -/
theorem contentLoop_ext_fails (Q : List Nat) (fuel : Nat) (hf : 1 ≤ fuel)
    (hQ1 : 1 ≤ Q.length) (hQ0 : Q.getD 0 0 % 256 = 172) :
    ∀ steps st vs st', contentLoop fuel steps st = .ok (vs, st') →
      st.pos ≤ st.buf.length →
      ∀ m, contentLoop fuel (steps + 1 + m) (extQ Q st) =
        .error (.unknownType 172) := by
  intro steps
  induction steps with
  | zero =>
    intro st vs st' h hle m
    unfold contentLoop at h
    split at h
    · cases h
    · rename_i hnlt
      have hpos : st.pos = st.buf.length := by omega
      rw [show 0 + 1 + m = m + 1 from by omega]
      unfold contentLoop
      rw [if_pos (show (extQ Q st).pos < (extQ Q st).buf.length from by
        show st.pos < (st.buf ++ Q).length
        rw [List.length_append]
        omega)]
      rw [contentF_at_end Q st hf hpos hQ1 hQ0]
      try rfl
  | succ n ihn =>
    intro st vs st' h hle m
    unfold contentLoop at h
    split at h
    · rename_i hlt
      split at h
      · cases h
      · rename_i p v st1 hc
        split at h
        · cases h
        · rename_i q vs2 st2 hl
          rw [show n + 1 + 1 + m = (n + 1 + m) + 1 from by omega]
          unfold contentLoop
          rw [if_pos (show (extQ Q st).pos < (extQ Q st).buf.length from by
            show st.pos < (st.buf ++ Q).length
            rw [List.length_append]
            omega)]
          rw [(extAll Q fuel).1 _ _ _ _ hc]
          try dsimp only
          have hb := (balAll fuel).1 _ _ _ _ hc
          have hle1 : st1.pos ≤ st1.buf.length := by
            obtain ⟨e1, p1, q1, _⟩ := hb
            rw [e1]
            exact q1 hle
          rw [ihn st1 vs2 st2 hl hle1 m]
          try rfl
    · rename_i hnlt
      have hpos : st.pos = st.buf.length := by omega
      rw [show n + 1 + 1 + m = (n + 1 + m) + 1 from by omega]
      unfold contentLoop
      rw [if_pos (show (extQ Q st).pos < (extQ Q st).buf.length from by
        show st.pos < (st.buf ++ Q).length
        rw [List.length_append]
        omega)]
      rw [contentF_at_end Q st hf hpos hQ1 hQ0]
      try rfl

theorem magic_ext (Q : List Nat) {st st1 : PState} (h : magic st = .ok st1) :
    magic (extQ Q st) = .ok (extQ Q st1) := by
  unfold magic at h ⊢
  split at h
  · cases h
  · rename_i p v st2 hr
    rw [readUInt16_ext hr]
    try dsimp only
    split at h
    · cases h
    · rename_i hv
      rw [if_neg hv]
      cases h
      rfl

theorem version_ext (Q : List Nat) {st st1 : PState} (h : version st = .ok st1) :
    version (extQ Q st) = .ok (extQ Q st1) := by
  unfold version at h ⊢
  split at h
  · cases h
  · rename_i p v st2 hr
    rw [readUInt16_ext hr]
    try dsimp only
    split at h
    · cases h
    · rename_i hv
      rw [if_neg hv]
      cases h
      rfl

/-- A stream whose magic check passes is at least two bytes long and starts
with the byte `0xAC`. -/
theorem magic_head {buf : List Nat} {st1 : PState}
    (h : magic (initState buf) = .ok st1) :
    2 ≤ buf.length ∧ buf.getD 0 0 % 256 = 172 := by
  unfold magic at h
  split at h
  · cases h
  · rename_i p v st2 hr
    split at h
    · cases h
    · rename_i hv
      obtain ⟨h1, h2, _⟩ := readUInt16_ok hr
      have hv' : v = 0xaced := not_not.mp hv
      dsimp only [initState] at h1 h2
      rcases buf with _ | ⟨b0, tail⟩
      · simp at h1
      · rcases tail with _ | ⟨b1, rest⟩
        · simp at h1
        · refine ⟨by simp only [List.length_cons]; omega, ?_⟩
          have hbe : beAt ⟨b0 :: b1 :: rest, 0, [], 0, 0⟩ 2 = 0xaced :=
            h2.symm.trans hv'
          simp [beAt, bytesAt, beVal] at hbe
          have hgd : (b0 :: b1 :: rest).getD 0 0 = b0 := rfl
          rw [hgd]
          omega

/-- **C3 counterexample.**  The empty stream `aced 0005` is a valid complete
stream parsing to the empty value list, yet parsing two copies concatenated
fails with an unknown-type error on the second header byte `0xAC` instead of
returning the concatenation of the two value lists. -/
theorem C3_counterexample :
    ParseSerializedObject 5 [172, 237, 0, 5] = .ok [] ∧
    ParseSerializedObject 5 ([172, 237, 0, 5] ++ [172, 237, 0, 5]) =
      .error (.unknownType 172) := ⟨rfl, rfl⟩

/-- **C3 (amended).**  Concatenating two valid complete streams never yields
the concatenation of their parses: after the first stream's values are
consumed, the top-level content loop reads the second stream's magic byte
`0xAC` as a type tag and fails with `UnknownType` (0xAC is not a valid tag).
The first stream's values and states are replayed unchanged on the extended
buffer; the error is raised at the position where the second stream begins. -/
theorem C3_concat_fails {fuelP fuelQ : Nat} {P Q : List Nat}
    {vsP : List JVal} {stP : PState} {vsQ : List JVal} {stQ : PState}
    (hP : parseSO fuelP P = .ok (vsP, stP))
    (hQ : parseSO fuelQ Q = .ok (vsQ, stQ))
    (hf : 1 ≤ fuelP) :
    parseSO fuelP (P ++ Q) = .error (.unknownType 172) := by
  have hQm : 2 ≤ Q.length ∧ Q.getD 0 0 % 256 = 172 := by
    unfold parseSO at hQ
    split at hQ
    · cases hQ
    · rename_i st1 hm
      exact magic_head hm
  obtain ⟨hQ2, hQ0⟩ := hQm
  unfold parseSO at hP ⊢
  split at hP
  · cases hP
  · rename_i st1 hm
    split at hP
    · cases hP
    · rename_i st2 hv
      rw [show initState (P ++ Q) = extQ Q (initState P) from rfl]
      rw [magic_ext Q hm]
      try dsimp only
      rw [version_ext Q hv]
      try dsimp only
      obtain ⟨e1, b1⟩ := magic_ok hm
      rw [e1] at hv
      obtain ⟨e2, b2⟩ := version_ok hv
      have hle : st2.pos ≤ st2.buf.length := by
        rw [e2]
        dsimp only [initState] at b2 ⊢
        omega
      rw [show (P ++ Q).length = P.length + 1 + (Q.length - 1) from by
        rw [List.length_append]; omega]
      exact contentLoop_ext_fails Q fuelP hf (by omega) hQ0 P.length st2 vsP stP
        hP hle (Q.length - 1)

theorem C3_concat_fails_witness :
    parseSO 5 [172, 237, 0, 5] =
      .ok ([], ⟨[172, 237, 0, 5], 4, [], 0, 0⟩) ∧
    parseSO 5 ([172, 237, 0, 5] ++ [172, 237, 0, 5]) =
      .error (.unknownType 172) :=
  ⟨rfl, @C3_concat_fails 5 5 [172, 237, 0, 5] [172, 237, 0, 5] []
      ⟨[172, 237, 0, 5], 4, [], 0, 0⟩ [] ⟨[172, 237, 0, 5], 4, [], 0, 0⟩
      rfl rfl (by omega)⟩

end JSerial
